import Mathlib

/-
Verification of the proposal resolution & selection pipeline of the
compound-governance-widget repository.

Each JavaScript function relevant to the spec's claims is shallowly embedded
as a Lean definition; machine numbers are modelled as Nat/Int, JS
`undefined`/`null`/string fields as explicit inductive values, fallible JS
calls as `Except`, and try/catch as explicit recovery on `Except`.
-/

namespace CompoundGov

/-! ## JavaScript primitives used throughout the embedding -/

/-- Substring search on character lists. -/
def containsSub (s pat : List Char) : Bool :=
  match s with
  | [] => pat.isEmpty
  | c :: t => pat.isPrefixOf (c :: t) || containsSub t pat

/-- JS `String.prototype.includes`: substring containment. -/
def jsIncludes (s pat : String) : Bool :=
  containsSub s.toList pat.toList

/-- Trim leading and trailing whitespace from a character list. -/
def trimChars (l : List Char) : List Char :=
  ((l.dropWhile Char.isWhitespace).reverse.dropWhile Char.isWhitespace).reverse

/-- JS `s.toLowerCase().trim()` as used on status strings (character-wise
ASCII lowering and whitespace trimming). -/
def lowerTrim (s : String) : String :=
  String.mk (trimChars (s.toList.map Char.toLower))

/-- JS `s.replace(/[_\s]/g, '')`: drop underscores and whitespace. -/
def stripSpaceUnderscore (s : String) : String :=
  String.mk (s.toList.filter (fun c => !(c == '_' || c.isWhitespace)))

/-- A JS field value that can be `undefined`, `null`, a string, or an object
(objects are opaque here: only their truthiness matters to the merge code). -/
inductive JField where
  | undef
  | jnull
  | jstr (s : String)
  | jobj
  deriving DecidableEq, Repr

/-- JS truthiness of a `JField` (`undefined`, `null` and `""` are falsy;
every object is truthy). -/
def JField.truthy : JField → Bool
  | .jstr s => s ≠ ""
  | .jobj => true
  | _ => false

/-- JS `a || b` on field values. -/
def jsOrF (a b : JField) : JField :=
  if a.truthy then a else b

/-! ## `escapeHtml` (src/javascripts/discourse/lib/utils/formatting.js:6-16,
identical copy at src/unnamed/part_001:20-28)

The five chained `String.prototype.replace` calls all have single-character
global patterns, so each one is a per-character flat-map over the input. -/

/-- One JS `str.replace(/c/g, r)` step with a single-character pattern. -/
def replaceChar (c : Char) (r : List Char) (s : List Char) : List Char :=
  s.flatMap (fun x => if x = c then r else [x])

/-- The replacement chain of `escapeHtml` on the character list of
`String(unsafe)`: `&`, `<`, `>`, `"`, `'` in this order. -/
def escapeHtmlChars (s : List Char) : List Char :=
  replaceChar '\'' "&#039;".toList
    (replaceChar '"' "&quot;".toList
      (replaceChar '>' "&gt;".toList
        (replaceChar '<' "&lt;".toList
          (replaceChar '&' "&amp;".toList s))))

/-- A JS value that can reach `escapeHtml`. -/
inductive JVal where
  | jundef
  | jnull
  | jnum (n : Int)
  | jstr (s : String)
  deriving DecidableEq, Repr

/-- JS truthiness of a `JVal`. -/
def JVal.truthy : JVal → Bool
  | .jstr s => s ≠ ""
  | .jnum n => n ≠ 0
  | _ => false

/-- JS `String(v)` for the values above. -/
def JVal.jsString : JVal → String
  | .jundef => "undefined"
  | .jnull => "null"
  | .jnum n => toString n
  | .jstr s => s

/-- `escapeHtml` (formatting.js:6-16): falsy input yields `''`; otherwise the
stringified input goes through the replacement chain. -/
def escapeHtml (v : JVal) : List Char :=
  if !v.truthy then []
  else escapeHtmlChars v.jsString.toList

/-! ## The proposal cache read path
(`fetchProposalDataByType`, compound-governance-widget.gjs:1259-1272, and the
identical check in `fetchProposalData`, part_001:341-356). -/

/-- A cache entry: the stored record (abstracted to its identity) plus its
`_cachedAt` stamp, which the code reads as `cachedData._cachedAt || 0`. -/
structure CacheEntry (α : Type) where
  cachedAt : Option Int
  record : α
  deriving DecidableEq, Repr

/-- Cache TTL: `5 * 60 * 1000` milliseconds. -/
def cacheTTLms : Int := 5 * 60 * 1000

/-- Outcome of the cache check at the top of `fetchProposalDataByType`. -/
inductive CacheOutcome (α : Type) where
  | hit (rec : CacheEntry α)
  | missFetch
  deriving DecidableEq, Repr

/-- The cache read of `fetchProposalDataByType` (gjs:1264-1272): on a hit
younger than the TTL the cached record is returned and no fetch happens;
a stale entry is deleted and the code falls through to a fresh fetch;
`forceRefresh` bypasses the read. Returns the outcome together with the
cache content for this key afterwards. -/
def cacheRead {α : Type} (entry : Option (CacheEntry α)) (now : Int)
    (forceRefresh : Bool) : CacheOutcome α × Option (CacheEntry α) :=
  match entry, forceRefresh with
  | some e, false =>
    let cacheAge := now - (e.cachedAt.getD 0)
    if cacheAge < cacheTTLms then
      (.hit e, some e)
    else
      (.missFetch, none)
  | some e, true => (.missFetch, some e)
  | none, _ => (.missFetch, none)

/-! ## `fetchWithRetry` (fetch-service.js:6-94)

The retry loop is embedded with the per-attempt behaviour of `fetch` given
as an oracle `Nat → Except JsError Unit` (attempt index to outcome); the
awaited backoff delays and the `handledErrors.add` calls are recorded in the
returned trace. -/

/-- A JS error as the fetch client sees it: its `name` and `message`. -/
structure JsError where
  name : String
  message : String
  deriving DecidableEq, Repr

/-- fetch-service.js:49-56: classification of transient network errors. -/
def isNetworkError (e : JsError) : Bool :=
  e.name == "TypeError" || e.name == "NetworkError" ||
  jsIncludes e.message "Failed to fetch" ||
  jsIncludes e.message "QUIC" ||
  jsIncludes e.message "ERR_QUIC" ||
  jsIncludes e.message "NetworkError" ||
  jsIncludes e.message "network"

/-- JS `error.message || error.toString()` (`Error.prototype.toString` is
`name: message`, degenerating to the name or `"Error"`). -/
def jsErrorText (e : JsError) : String :=
  if e.message ≠ "" then e.message
  else if e.name = "" then "Error" else e.name ++ ": "

/-- How the `for` loop of `fetchWithRetry` ended. -/
inductive LoopExit where
  | success
  | failed (lastError : JsError)
  | neverRan
  deriving DecidableEq, Repr

/-- Trace of one `fetchWithRetry` run: number of fetch attempts performed,
backoff delays awaited between attempts (in order), loop exit, and the
errors passed to `handledErrors.add` by the retry branches. -/
structure RetryTrace where
  attempts : Nat
  delays : List Nat
  exit : LoopExit
  handledAdds : List JsError
  deriving DecidableEq, Repr

/-- The `for (let attempt = 0; attempt < maxRetries; attempt++)` loop of
fetch-service.js:14-73, with `fuel = maxRetries - attempt`. A timed-out
attempt (`AbortError`) or a classified network error is retried after a
`baseDelay * 2 ^ attempt` delay unless it was the last attempt; any other
error breaks immediately. -/
def retryLoop (oracle : Nat → Except JsError Unit) (maxRetries baseDelay : Nat) :
    Nat → Nat → RetryTrace
  | 0, _ => ⟨0, [], .neverRan, []⟩
  | fuel + 1, attempt =>
    match oracle attempt with
    | .ok _ => ⟨1, [], .success, []⟩
    | .error e =>
      if e.name = "AbortError" then
        if attempt < maxRetries - 1 then
          let t := retryLoop oracle maxRetries baseDelay fuel (attempt + 1)
          ⟨t.attempts + 1, (baseDelay * 2 ^ attempt) :: t.delays, t.exit,
            e :: t.handledAdds⟩
        else ⟨1, [], .failed e, []⟩
      else if isNetworkError e = true ∧ attempt < maxRetries - 1 then
        let t := retryLoop oracle maxRetries baseDelay fuel (attempt + 1)
        ⟨t.attempts + 1, (baseDelay * 2 ^ attempt) :: t.delays, t.exit,
          e :: t.handledAdds⟩
      else ⟨1, [], .failed e, []⟩

/-- The enhanced error thrown after exhausting attempts
(fetch-service.js:76-93), with its `cause`. -/
structure EnhancedError where
  name : String
  message : String
  cause : Option JsError
  deriving DecidableEq, Repr

/-- `fetchWithRetry` (fetch-service.js:6-94): runs the retry loop and, on
failure, throws the wrapping error carrying the attempt count, the original
message and the URL, with the last error as `cause`. -/
def fetchWithRetry (oracle : Nat → Except JsError Unit) (url : String)
    (maxRetries baseDelay : Nat) : RetryTrace × Except EnhancedError Unit :=
  let t := retryLoop oracle maxRetries baseDelay maxRetries 0
  match t.exit with
  | .success => (t, .ok ())
  | .failed e =>
    let msg := "Failed to fetch after " ++ toString maxRetries ++
      " attempts: " ++ jsErrorText e ++ ". URL: " ++ url
    let nm := if e.name = "" then "NetworkError" else e.name
    (t, .error ⟨nm, msg, some e⟩)
  | .neverRan =>
    (t, .error ⟨"Error", "Failed to fetch: Unknown error. URL: " ++ url, none⟩)

/-! ## URL classifier (url-parser.js:9-188)

The extractors are embedded as JS calls of type
`Except JsException (Option _)`: an `.error` would be an uncaught exception
propagating to the caller. Regular-expression matches are total oracle
functions (a JS `String.match` never throws); `new URL(url)` and `parseInt`
are oracles that may throw or yield NaN, and the source's try/catch blocks
are the explicit recoveries. -/

/-- An opaque JS exception value. -/
structure JsException where
  msg : String
  deriving DecidableEq, Repr

/-- A JS `try { ... } catch { return null; }` around a nullable-returning
body. -/
def jsCatchOpt {α : Type} (x : Except JsException (Option α)) :
    Except JsException (Option α) :=
  match x with
  | .ok v => .ok v
  | .error _ => .ok none

/-- JS `s.toLowerCase()` (character-wise ASCII lowering). -/
def jsToLower (s : String) : String :=
  String.mk (s.toList.map Char.toLower)

/-- Oracles for the primitives of url-parser.js: one per regex literal
(returning the capture groups), the `proposalId` query parameter read off
`new URL(url).searchParams` (may throw), and `parseInt(_, 10)` (`none` for
`NaN`). -/
structure UrlPrims where
  testnetProposalMatch : String → Option (String × String)
  testnetDirectMatch : String → Option (String × String)
  snapshotProposalMatch : String → Option (String × String)
  snapshotDirectMatch : String → Option (String × String)
  urlQueryProposalId : String → Except JsException (Option String)
  jsParseInt : String → Option Int
  voteMatch : String → Option String
  appV3Match : String → Option String
  forumMatch : String → Option String
  appMatch : String → Option String
  aipMatch : String → Option String

/-- The identifier extracted for a Snapshot proposal URL. -/
structure SnapshotInfo where
  space : String
  proposalId : String
  isTestnet : Bool
  deriving DecidableEq, Repr

/-- The identifier extracted for an AIP proposal URL. -/
structure AipInfo where
  proposalId : String
  urlSource : String
  deriving DecidableEq, Repr

/-- `extractSnapshotProposalInfo` (url-parser.js:9-67). A direct match whose
id segment is literally `"proposal"` is skipped and the mainnet patterns are
still tried; the catch block (url-parser.js:63-66) returns null. -/
def extractSnapshotProposalInfo (pr : UrlPrims) (url : String) :
    Except JsException (Option SnapshotInfo) :=
  let mainnet : Option SnapshotInfo :=
    match pr.snapshotProposalMatch url with
    | some (space, pid) => some ⟨space, pid, false⟩
    | none =>
      match pr.snapshotDirectMatch url with
      | some (space, pid) =>
        if jsToLower pid ≠ "proposal" then some ⟨space, pid, false⟩ else none
      | none => none
  jsCatchOpt
    (if jsIncludes url "testnet.snapshot.box" then
      match pr.testnetProposalMatch url with
      | some (space, pid) => .ok (some ⟨space, pid, true⟩)
      | none =>
        match pr.testnetDirectMatch url with
        | some (space, pid) =>
          if jsToLower pid ≠ "proposal" then .ok (some ⟨space, pid, true⟩)
          else .ok mainnet
        | none => .ok mainnet
    else .ok mainnet)

/-- `extractAIPProposalInfo` (url-parser.js:78-154). Step 1 reads the query
parameter inside its own try/catch (a thrown `new URL` falls through to the
regex patterns of step 2), requiring a parsed id `> 0`; the outer catch
(url-parser.js:150-153) returns null. -/
def extractAIPProposalInfo (pr : UrlPrims) (url : String) :
    Except JsException (Option AipInfo) :=
  let step2 : Option AipInfo :=
    match pr.voteMatch url with
    | some pid => some ⟨pid, "vote.onaave.com"⟩
    | none =>
      match pr.appV3Match url with
      | some pid => some ⟨pid, "app.aave.com"⟩
      | none =>
        match pr.forumMatch url with
        | some pid => some ⟨pid, "app.aave.com"⟩
        | none =>
          match pr.appMatch url with
          | some pid => some ⟨pid, "app.aave.com"⟩
          | none =>
            match pr.aipMatch url with
            | some pid => some ⟨pid, "app.aave.com"⟩
            | none => none
  let step1 : Option AipInfo :=
    match pr.urlQueryProposalId url with
    | .error _ => none
    | .ok none => none
    | .ok (some qp) =>
      match pr.jsParseInt qp with
      | none => none
      | some n =>
        if 0 < n then
          some ⟨toString n,
            if jsIncludes url "vote.onaave.com" then "vote.onaave.com"
            else "app.aave.com"⟩
        else none
  jsCatchOpt
    (.ok (match step1 with
      | some i => some i
      | none => step2))

/-- The typed identifier returned by `extractProposalInfo`
(url-parser.js:165-184), with the spread-in alias fields. -/
inductive ExtractedInfo where
  | snapshot (space proposalId urlProposalNumber internalId : String)
      (isTestnet : Bool)
  | aip (proposalId urlSource urlProposalNumber internalId topicId : String)
  deriving DecidableEq, Repr

/-- `extractProposalInfo` (url-parser.js:159-188): falsy url yields null,
then Snapshot is tried before AIP. -/
def extractProposalInfo (pr : UrlPrims) (url : String) :
    Except JsException (Option ExtractedInfo) := do
  if url = "" then
    return none
  else
    let snap ← extractSnapshotProposalInfo pr url
    match snap with
    | some s =>
      return some (.snapshot s.space s.proposalId s.proposalId s.proposalId
        s.isTestnet)
    | none =>
      let aipInfo ← extractAIPProposalInfo pr url
      match aipInfo with
      | some a =>
        return some (.aip a.proposalId a.urlSource a.proposalId a.proposalId
          a.proposalId)
      | none => return none

/-! ## Subgraph vote conversion (`fetchAIPFromSubgraph`, part_000:409-458)

The votes-processing slice of `fetchAIPFromSubgraph`, from the raw `votes`
field of the GraphQL response to the converted human-unit vote strings.
`BigInt(10 ** 18)` is exactly `10 ^ 18` (1e18 is exactly representable as a
JS double). -/

/-- The `votes` field of a subgraph proposal: GraphQL null, a single votes
object, or an array of votes objects; each amount is an 18-decimal
fixed-point integer serialized as a digit string (or null). -/
inductive JsVotes where
  | jnull
  | vobj (forVotes againstVotes : Option String)
  | varr (elems : List (Option String × Option String))
  deriving DecidableEq, Repr

/-- JS `BigInt(String(raw))` on the subgraph's digit strings. -/
def digitsToNat (s : String) : Nat :=
  s.toList.foldl (fun n c => n * 10 + (c.toNat - '0'.toNat)) 0

/-- JS truthiness of a nullable string. -/
def truthyStr : Option String → Bool
  | none => false
  | some s => s ≠ ""

/-- part_000:409-458: `votesAvailable` is the truthiness of `p.votes`; an
array is unwrapped to its first element (an empty array leaves the raw
values undefined but still counts as available); a truthy raw value is
divided by `10 ^ 18` with truncating `BigInt` division; a missing raw value
becomes `"0"` when votes are available and `null` otherwise. Abstain is
always `"0"` (not supported by the platform). Returns
`(forVotes, againstVotes, abstainVotes)`. -/
def subgraphVotesConversion (votes : JsVotes) :
    Option String × Option String × String :=
  let votesAvailable : Bool :=
    match votes with
    | .jnull => false
    | _ => true
  let votesData : Option String × Option String :=
    match votes with
    | .jnull => (none, none)
    | .vobj f a => (f, a)
    | .varr [] => (none, none)
    | .varr (e :: _) => e
  let forVotesRaw := if truthyStr votesData.1 then votesData.1 else none
  let againstVotesRaw := if truthyStr votesData.2 then votesData.2 else none
  let decimals : Nat := 10 ^ 18
  let forVotesBigInt : Option Nat :=
    match forVotesRaw with
    | some s => some (digitsToNat s)
    | none => if votesAvailable then some 0 else none
  let againstVotesBigInt : Option Nat :=
    match againstVotesRaw with
    | some s => some (digitsToNat s)
    | none => if votesAvailable then some 0 else none
  let forVotes := forVotesBigInt.map (fun n => toString (n / decimals))
  let againstVotes := againstVotesBigInt.map (fun n => toString (n / decimals))
  let abstainVotes := "0"
  (forVotes, againstVotes, abstainVotes)

/-! ## `mergeProposalData` (part_000:215-266)

Field values are `JField`s; the first `markdownData`/`subgraphMetadata`
arguments may be absent (`none`). A null `onChainData` would make the JS
throw at part_000:254 before reaching the `_dataSource` ternary, so the
embedding takes the on-chain record itself and the `'subgraph'`/`'unknown'`
arms of that ternary are unreachable. -/

/-- The on-chain payload fields the merge reads. -/
structure OnChainRec where
  title : JField
  description : JField
  forVotes : JField
  againstVotes : JField
  status : JField
  creator : JField
  votingDuration : JField
  ipfsHash : JField
  deriving DecidableEq, Repr

/-- The markdown payload fields the merge reads. -/
structure MarkdownRec where
  title : JField
  description : JField
  markdown : JField
  metadata : JField
  deriving DecidableEq, Repr

/-- The subgraph payload fields the merge reads. -/
structure SubgraphRec where
  title : JField
  description : JField
  forVotes : JField
  againstVotes : JField
  creator : JField
  votingDuration : JField
  ipfsHash : JField
  deriving DecidableEq, Repr

/-- The merged record. -/
structure MergedRec where
  title : JField
  description : JField
  forVotes : JField
  againstVotes : JField
  status : JField
  creator : JField
  votingDuration : JField
  ipfsHash : JField
  markdown : JField
  markdownMetadata : JField
  contentSource : Option String
  dataSource : String
  deriving DecidableEq, Repr

/-- part_000:233-235: backfill for-votes from the subgraph when missing. -/
def sgStepForVotes (t : MergedRec) (sg : SubgraphRec) : MergedRec :=
  if !t.forVotes.truthy && sg.forVotes.truthy then
    { t with forVotes := sg.forVotes } else t

/-- part_000:236-238: backfill against-votes. -/
def sgStepAgainstVotes (t : MergedRec) (sg : SubgraphRec) : MergedRec :=
  if !t.againstVotes.truthy && sg.againstVotes.truthy then
    { t with againstVotes := sg.againstVotes } else t

/-- part_000:241-243: backfill the creator. -/
def sgStepCreator (t : MergedRec) (sg : SubgraphRec) : MergedRec :=
  if sg.creator.truthy && !t.creator.truthy then
    { t with creator := sg.creator } else t

/-- part_000:244-246: backfill the voting duration. -/
def sgStepVotingDuration (t : MergedRec) (sg : SubgraphRec) : MergedRec :=
  if sg.votingDuration.truthy && !t.votingDuration.truthy then
    { t with votingDuration := sg.votingDuration } else t

/-- part_000:248-250: backfill the ipfs hash. -/
def sgStepIpfsHash (t : MergedRec) (sg : SubgraphRec) : MergedRec :=
  if sg.ipfsHash.truthy && !t.ipfsHash.truthy then
    { t with ipfsHash := sg.ipfsHash } else t

/-- The conditional fallback chain of the subgraph arm (part_000:233-250). -/
def applySubgraphFallbacks (t1 : MergedRec) (sg : SubgraphRec) : MergedRec :=
  sgStepIpfsHash
    (sgStepVotingDuration
      (sgStepCreator (sgStepAgainstVotes (sgStepForVotes t1 sg) sg) sg) sg) sg

/-- Each fallback step is a single-field record update. -/
theorem sgStepForVotes_eq (t : MergedRec) (sg : SubgraphRec) :
    sgStepForVotes t sg = { t with forVotes :=
      if !t.forVotes.truthy && sg.forVotes.truthy then sg.forVotes
      else t.forVotes } := by
  unfold sgStepForVotes
  split_ifs <;> rfl

/-- Single-field form of the against-votes step. -/
theorem sgStepAgainstVotes_eq (t : MergedRec) (sg : SubgraphRec) :
    sgStepAgainstVotes t sg = { t with againstVotes :=
      if !t.againstVotes.truthy && sg.againstVotes.truthy then sg.againstVotes
      else t.againstVotes } := by
  unfold sgStepAgainstVotes
  split_ifs <;> rfl

/-- Single-field form of the creator step. -/
theorem sgStepCreator_eq (t : MergedRec) (sg : SubgraphRec) :
    sgStepCreator t sg = { t with creator :=
      if sg.creator.truthy && !t.creator.truthy then sg.creator
      else t.creator } := by
  unfold sgStepCreator
  split_ifs <;> rfl

/-- Single-field form of the voting-duration step. -/
theorem sgStepVotingDuration_eq (t : MergedRec) (sg : SubgraphRec) :
    sgStepVotingDuration t sg = { t with votingDuration :=
      if sg.votingDuration.truthy && !t.votingDuration.truthy then
        sg.votingDuration
      else t.votingDuration } := by
  unfold sgStepVotingDuration
  split_ifs <;> rfl

/-- Single-field form of the ipfs-hash step. -/
theorem sgStepIpfsHash_eq (t : MergedRec) (sg : SubgraphRec) :
    sgStepIpfsHash t sg = { t with ipfsHash :=
      if sg.ipfsHash.truthy && !t.ipfsHash.truthy then sg.ipfsHash
      else t.ipfsHash } := by
  unfold sgStepIpfsHash
  split_ifs <;> rfl

/-- `mergeProposalData` (part_000:215-266). -/
def mergeProposalData (onChainData : OnChainRec)
    (markdownData : Option MarkdownRec)
    (subgraphMetadata : Option SubgraphRec) : MergedRec :=
  let m0 : MergedRec :=
    { title := onChainData.title, description := onChainData.description,
      forVotes := onChainData.forVotes,
      againstVotes := onChainData.againstVotes, status := onChainData.status,
      creator := onChainData.creator,
      votingDuration := onChainData.votingDuration,
      ipfsHash := onChainData.ipfsHash, markdown := .undef,
      markdownMetadata := .undef, contentSource := none, dataSource := "" }
  let m1 : MergedRec :=
    match markdownData with
    | some md =>
      { m0 with
        title := jsOrF md.title m0.title,
        description := jsOrF md.description m0.description,
        markdown := md.markdown,
        markdownMetadata := md.metadata,
        contentSource := some "markdown" }
    | none =>
      match subgraphMetadata with
      | some sg =>
        applySubgraphFallbacks
          { m0 with
            title := jsOrF sg.title m0.title,
            description := jsOrF sg.description m0.description,
            contentSource := some "subgraph" }
          sg
      | none => m0
  let m2 := if onChainData.forVotes ≠ JField.undef then
      { m1 with forVotes := onChainData.forVotes } else m1
  let m3 := if onChainData.againstVotes ≠ JField.undef then
      { m2 with againstVotes := onChainData.againstVotes } else m2
  let m4 := if onChainData.status ≠ JField.undef then
      { m3 with status := onChainData.status } else m3
  { m4 with dataSource := "on-chain" }

/-- The whole fallback chain as one simultaneous record update. -/
theorem applySubgraphFallbacks_eq (t1 : MergedRec) (sg : SubgraphRec) :
    applySubgraphFallbacks t1 sg = { t1 with
      forVotes :=
        if !t1.forVotes.truthy && sg.forVotes.truthy then sg.forVotes
        else t1.forVotes,
      againstVotes :=
        if !t1.againstVotes.truthy && sg.againstVotes.truthy then
          sg.againstVotes
        else t1.againstVotes,
      creator :=
        if sg.creator.truthy && !t1.creator.truthy then sg.creator
        else t1.creator,
      votingDuration :=
        if sg.votingDuration.truthy && !t1.votingDuration.truthy then
          sg.votingDuration
        else t1.votingDuration,
      ipfsHash :=
        if sg.ipfsHash.truthy && !t1.ipfsHash.truthy then sg.ipfsHash
        else t1.ipfsHash } := by
  unfold applySubgraphFallbacks
  rw [sgStepForVotes_eq, sgStepAgainstVotes_eq, sgStepCreator_eq,
    sgStepVotingDuration_eq, sgStepIpfsHash_eq]


/-! ## Resolution entry points: `fetchAIPProposal` (part_000:623-661) and the
Tally `fetchProposalData` (part_001:341-397)

The tier fetchers are oracles of type `Except JsException (Option _)` — each
tier catches its own failures and resolves `null`, but an `.error` models a
throw escaping it. `fetchAIPProposal` has a catch-all returning null;
`fetchProposalData` has none and instead ends in a fallback record. -/

/-- A cached AIP resolution: the tier payload plus the decorations
`_cachedAt`, `chain` and `urlSource` added at part_000:630-632/648-650. -/
structure CachedAipResult (α : Type) where
  payload : α
  cachedAt : Int
  chain : String
  urlSource : String
  deriving DecidableEq, Repr

/-- `fetchAIPProposal` (part_000:623-661): subgraph first, then on-chain;
each success is decorated, written to the cache and returned; if both tiers
are unavailable the function returns null; its catch-all turns any escaped
exception into null. Returns the call result and the value written to the
cache (if any). -/
def fetchAIPProposal {α : Type}
    (subgraphFetch onChainFetch : Except JsException (Option α))
    (urlSource : String) (now : Int) :
    Except JsException (Option (CachedAipResult α)) ×
      Option (CachedAipResult α) :=
  let body : Except JsException
      (Option (CachedAipResult α) × Option (CachedAipResult α)) := do
    let r ← subgraphFetch
    match r with
    | some p =>
      let res : CachedAipResult α := ⟨p, now, "thegraph", urlSource⟩
      return (some res, some res)
    | none =>
      let oc ← onChainFetch
      match oc with
      | some p =>
        let res : CachedAipResult α := ⟨p, now, "onchain", urlSource⟩
        return (some res, some res)
      | none => return (none, none)
  match body with
  | .ok (v, w) => (.ok v, w)
  | .error _ => (.ok none, none)

/-- One vote bucket of a Tally record. -/
structure VoteStat where
  count : Nat
  voters : Nat
  percent : Nat
  deriving DecidableEq, Repr

/-- The `voteStats` object (the `for`/`against`/`abstain` buckets are named
`forStat` etc. because `for` is reserved in Lean). -/
structure VoteStats where
  forStat : VoteStat
  againstStat : VoteStat
  abstainStat : VoteStat
  total : Nat
  deriving DecidableEq, Repr

/-- The Tally proposal record shape `fetchProposalData` handles. -/
structure TallyRec where
  id : Option String
  title : Option String
  status : String
  voteStats : Option VoteStats
  url : Option String
  deriving DecidableEq, Repr

/-- part_001:363/375: `result && result.title && result.title !== "Tally
Proposal"`. -/
def tallyResultValid (r : Option TallyRec) : Bool :=
  match r with
  | none => false
  | some t =>
    match t.title with
    | none => false
    | some ti => ti ≠ "" && ti ≠ "Tally Proposal"

/-- part_001:385-396: the fallback record returned when every fetch path
fails. -/
def tallyFallback (proposalId originalUrl : Option String) : TallyRec :=
  ⟨proposalId, some "Tally Proposal", "unknown",
    some ⟨⟨0, 0, 0⟩, ⟨0, 0, 0⟩, ⟨0, 0, 0⟩, 0⟩, originalUrl⟩

/-- `fetchProposalData` (part_001:341-397): cache check, then
governorId+onchainId fetch, then internal-id fetch, then the fallback
record. There is no catch-all: a throwing fetcher would propagate (each
fetcher catches internally in the source). -/
def fetchProposalData (cached : Option (CacheEntry TallyRec)) (now : Int)
    (proposalId originalUrl govId urlProposalNumber : Option String)
    (fetchByOnchain fetchByInternal : Except JsException (Option TallyRec))
    (forceRefresh : Bool) : Except JsException TallyRec :=
  let cacheHit : Option TallyRec :=
    match cached, forceRefresh with
    | some e, false =>
      if now - (e.cachedAt.getD 0) < cacheTTLms then some e.record else none
    | _, _ => none
  match cacheHit with
  | some r => .ok r
  | none =>
    let fallback := tallyFallback proposalId originalUrl
    let step2 : Except JsException TallyRec :=
      if truthyStr proposalId then do
        let r ← fetchByInternal
        if tallyResultValid r then
          match r with
          | some t => .ok t
          | none => .ok fallback
        else .ok fallback
      else .ok fallback
    if truthyStr govId && truthyStr urlProposalNumber then do
      let r ← fetchByOnchain
      if tallyResultValid r then
        match r with
        | some t => .ok t
        | none => step2
      else step2
    else step2

/-! ## Status normalization (`renderStatusWidget`, part_001:743-891)

The status/vote/quorum processing inside `renderStatusWidget`: it derives the
display label and the badge category from the raw platform status, the vote
tallies and the quorum threshold. Vote counts and the quorum are modelled as
naturals (the code parses them from strings via `BigInt`/`Number`). -/

def defeatStatuses : List String := ["defeat", "defeated", "rejected"]

def activeStatuses : List String := ["active", "open"]

def executedStatuses : List String := ["executed", "crosschainexecuted", "completed"]

def queuedStatuses : List String := ["queued", "queuing"]

def pendingStatuses : List String := ["pending"]

/-- part_001:768-770: direct detection of a "pending execution" status. -/
def rawPendingExecution (status : String) : Bool :=
  jsIncludes (stripSpaceUnderscore status) "pendingexecution" ||
  jsIncludes status "pending execution" ||
  jsIncludes status "pending_execution"

/-- part_001:776-780: direct detection of a "quorum not reached" status. -/
def rawQuorumNotReached (status : String) : Bool :=
  jsIncludes (stripSpaceUnderscore status) "quorumnotreached" ||
  jsIncludes status "quorum not reached" ||
  jsIncludes status "quorum_not_reached" ||
  jsIncludes status "quorumnotreached" ||
  (jsIncludes status "quorum" && jsIncludes status "not" && jsIncludes status "reached")

/-- part_001:789-796: defeat-family detection (suppressed for quorum texts). -/
def rawIsDefeat (isQuorumNotReached : Bool) (status : String) : Bool :=
  !isQuorumNotReached &&
    defeatStatuses.any (fun s =>
      status == s || (jsIncludes status s && !jsIncludes status "quorum"))

/-- The decision flags and display label computed by `renderStatusWidget`. -/
structure StatusFlags where
  displayStatus : String
  isPendingExecution : Bool
  finalIsQuorumNotReached : Bool
  finalIsDefeat : Bool
  isActive : Bool
  isExecuted : Bool
  isQueued : Bool
  isPending : Bool
  badgeClass : String
  deriving DecidableEq, Repr

/-- part_001:743-891 with `status` the lowercased trimmed raw status and
`exactStatus` the raw status as received. -/
def statusDetection (exactStatus status : String)
    (votesFor votesAgainst votesAbstain quorumNum : Nat) : StatusFlags :=
  let isPendingExecution0 := rawPendingExecution status
  let isQuorumNotReached := rawQuorumNotReached status
  let isDefeat := rawIsDefeat isQuorumNotReached status
  let totalVotes := votesFor + votesAgainst + votesAbstain
  let quorumReached := decide (0 < quorumNum) && decide (quorumNum ≤ totalVotes)
  let quorumNotReachedByVotes := decide (0 < quorumNum) &&
    decide (0 < totalVotes) && decide (totalVotes < quorumNum)
  let hasMajoritySupport := decide (votesAgainst < votesFor)
  let proposalPassed := quorumReached && hasMajoritySupport
  let isPendingExecution :=
    isPendingExecution0 || (status == "queued" && proposalPassed)
  let isActuallyQuorumNotReached := isQuorumNotReached ||
    (quorumNotReachedByVotes && (status == "defeated" || status == "defeat"))
  let finalIsQuorumNotReached := isActuallyQuorumNotReached
  let finalIsDefeat := isDefeat && !finalIsQuorumNotReached && quorumReached
  let displayStatus :=
    if isPendingExecution && status == "queued" then "Pending execution"
    else if finalIsQuorumNotReached && !isQuorumNotReached then "Quorum not reached"
    else if finalIsDefeat && quorumReached then "Defeated"
    else exactStatus
  let isActive := !isPendingExecution && !finalIsDefeat &&
    !finalIsQuorumNotReached && activeStatuses.contains status
  let isExecuted := !isPendingExecution && !finalIsDefeat &&
    !finalIsQuorumNotReached && executedStatuses.contains status
  let isQueued := !isPendingExecution && !finalIsDefeat &&
    !finalIsQuorumNotReached && queuedStatuses.contains status
  let isPending := !isPendingExecution && !finalIsDefeat &&
    !finalIsQuorumNotReached && !isQueued &&
    (pendingStatuses.contains status ||
      (jsIncludes status "pending" && !isPendingExecution))
  let badgeClass :=
    if isPendingExecution then "pending"
    else if isActive then "active"
    else if isExecuted then "executed"
    else if isQueued then "queued"
    else if isPending then "pending"
    else if finalIsDefeat then "defeated"
    else if finalIsQuorumNotReached then "quorum-not-reached"
    else "inactive"
  ⟨displayStatus, isPendingExecution, finalIsQuorumNotReached, finalIsDefeat,
    isActive, isExecuted, isQueued, isPending, badgeClass⟩

/-- part_001:743: `proposalData.status || 'unknown'`. -/
def rawStatusOf : JField → String
  | .jstr s => if s = "" then "unknown" else s
  | _ => "unknown"

/-- part_001:816-824: the quorum threshold, 0 when falsy/undefined. -/
def quorumNumOf : Option Nat → Nat
  | none => 0
  | some n => n

/-- The whole status derivation of `renderStatusWidget` from the record
fields. -/
def renderStatusFlags (status : JField) (votesFor votesAgainst votesAbstain : Nat)
    (quorum : Option Nat) : StatusFlags :=
  let rawStatus := rawStatusOf status
  statusDetection rawStatus (lowerTrim rawStatus)
    votesFor votesAgainst votesAbstain (quorumNumOf quorum)

/-- The spec's canonical status enum, read off the mutually-exclusive
decision flags in the order of the display-status override
(part_001:849-858); when no reclassification fires the raw status is kept. -/
def canonicalStatus (status : JField) (votesFor votesAgainst votesAbstain : Nat)
    (quorum : Option Nat) : String :=
  let r := renderStatusFlags status votesFor votesAgainst votesAbstain quorum
  if r.isPendingExecution then "pending-execution"
  else if r.finalIsQuorumNotReached then "quorum-not-reached"
  else if r.finalIsDefeat then "defeated"
  else rawStatusOf status

end CompoundGov

namespace CompoundGov

/-! ## Theorems for C10 and C5 -/

/-- Characterisation of membership after one single-character replace step. -/
theorem mem_replaceChar {x c : Char} {r s : List Char}
    (hx : x ∈ replaceChar c r s) : x ∈ r ∨ (x ∈ s ∧ x ≠ c) := by
  unfold replaceChar at hx
  rcases List.mem_flatMap.1 hx with ⟨y, hy, hxy⟩
  by_cases h : y = c
  · simp [h] at hxy
    exact Or.inl hxy
  · simp [h] at hxy
    exact Or.inr ⟨hxy ▸ hy, hxy ▸ h⟩

/-- The replacement chain never leaves any of the four escaped characters. -/
theorem escapeHtmlChars_spec (s : List Char) :
    '<' ∉ escapeHtmlChars s ∧ '>' ∉ escapeHtmlChars s ∧
    '"' ∉ escapeHtmlChars s ∧ '\'' ∉ escapeHtmlChars s := by
  refine ⟨?_, ?_, ?_, ?_⟩ <;> intro h <;> unfold escapeHtmlChars at h
  · rcases mem_replaceChar h with h | ⟨h, _⟩
    · exact absurd h (by decide)
    rcases mem_replaceChar h with h | ⟨h, _⟩
    · exact absurd h (by decide)
    rcases mem_replaceChar h with h | ⟨h, _⟩
    · exact absurd h (by decide)
    rcases mem_replaceChar h with h | ⟨_, hne⟩
    · exact absurd h (by decide)
    exact hne rfl
  · rcases mem_replaceChar h with h | ⟨h, _⟩
    · exact absurd h (by decide)
    rcases mem_replaceChar h with h | ⟨h, _⟩
    · exact absurd h (by decide)
    rcases mem_replaceChar h with h | ⟨_, hne⟩
    · exact absurd h (by decide)
    exact hne rfl
  · rcases mem_replaceChar h with h | ⟨h, _⟩
    · exact absurd h (by decide)
    rcases mem_replaceChar h with h | ⟨_, hne⟩
    · exact absurd h (by decide)
    exact hne rfl
  · rcases mem_replaceChar h with h | ⟨_, hne⟩
    · exact absurd h (by decide)
    exact hne rfl

/-- C10: for every input value, `escapeHtml` returns a string with no
occurrence of `<`, `>`, `"` or `'`, and every falsy input (null, undefined,
empty string, 0) yields the empty string. -/
theorem escapeHtml_no_specials_and_falsy_empty :
    (∀ v : JVal, '<' ∉ escapeHtml v ∧ '>' ∉ escapeHtml v ∧
      '"' ∉ escapeHtml v ∧ '\'' ∉ escapeHtml v)
    ∧ (∀ v : JVal, v.truthy = false → escapeHtml v = []) := by
  constructor
  · intro v
    unfold escapeHtml
    by_cases hv : v.truthy
    · simpa [hv] using escapeHtmlChars_spec v.jsString.toList
    · simp [Bool.not_eq_true] at hv
      simp [hv]
  · intro v hv
    simp [escapeHtml, hv]

/-- Witness for C10 at concrete inputs. -/
theorem escapeHtml_no_specials_and_falsy_empty_witness :
    '<' ∉ escapeHtml (JVal.jstr "a<b>\"c\"&'d'") ∧
    escapeHtml JVal.jnull = [] ∧ escapeHtml (JVal.jstr "") = [] ∧
    escapeHtml (JVal.jnum 0) = [] ∧ escapeHtml JVal.jundef = [] :=
  ⟨(escapeHtml_no_specials_and_falsy_empty.1 _).1,
    escapeHtml_no_specials_and_falsy_empty.2 _ rfl,
    escapeHtml_no_specials_and_falsy_empty.2 _ rfl,
    escapeHtml_no_specials_and_falsy_empty.2 _ (by decide),
    escapeHtml_no_specials_and_falsy_empty.2 _ rfl⟩

/-- C5: a record cached at `t0` and read without `forceRefresh` strictly
before `t0 + 300000` ms is returned from the cache (no fetch); a read at or
after `t0 + 300000` deletes the entry and falls through to a fresh fetch. -/
theorem cacheRead_ttl {α : Type} (rec : CacheEntry α) (t0 now : Int)
    (hstamp : rec.cachedAt = some t0) :
    (now < t0 + 300000 →
      cacheRead (some rec) now false = (.hit rec, some rec))
    ∧ (t0 + 300000 ≤ now →
      cacheRead (some rec) now false = (.missFetch, none)) := by
  have hred : cacheRead (some rec) now false
      = (if now - t0 < cacheTTLms then (.hit rec, some rec)
         else (.missFetch, none)) := by
    simp [cacheRead, hstamp]
  rw [hred]
  unfold cacheTTLms
  constructor <;> intro h
  · rw [if_pos (by omega)]
  · rw [if_neg (by omega)]

/-- Witness for C5: a hit at age 299999 ms and a refetch at age 300001 ms. -/
theorem cacheRead_ttl_witness :
    cacheRead (some (CacheEntry.mk (some 0) (7 : Nat))) 299999 false
      = (.hit (CacheEntry.mk (some 0) 7), some (CacheEntry.mk (some 0) 7))
    ∧ cacheRead (some (CacheEntry.mk (some 0) (7 : Nat))) 300001 false
      = (.missFetch, none) :=
  ⟨(cacheRead_ttl (CacheEntry.mk (some 0) 7) 0 299999 rfl).1 (by decide),
    (cacheRead_ttl (CacheEntry.mk (some 0) 7) 0 300001 rfl).2 (by decide)⟩

/-! ## Theorems for C1 and C2 -/

/-- On a (lowercased, trimmed) status of `"queued"` with quorum reached and
majority support, the detection produces the pending-execution flags. -/
theorem statusDetection_queued_passed (exact : String) (f a ab q : Nat)
    (hq : 0 < q) (hquorum : q ≤ f + a + ab) (hmaj : a < f) :
    statusDetection exact "queued" f a ab q =
      ⟨"Pending execution", true, false, false, false, false, false, false,
        "pending"⟩ := by
  have e1 : rawPendingExecution "queued" = false := by decide
  have e2 : rawQuorumNotReached "queued" = false := by decide
  have e3 : rawIsDefeat false "queued" = false := by decide
  have hq1 : decide (0 < q) = true := by simp [hq]
  have hq2 : decide (q ≤ f + a + ab) = true := by simp [hquorum]
  have hq3 : decide (a < f) = true := by simp [hmaj]
  unfold statusDetection
  simp only [e1, e2, e3, hq1, hq2, hq3]
  simp

/-- C1: for every raw status normalizing to the platform's `"queued"` state,
if a quorum threshold `q > 0` is defined, total votes reach it and for-votes
strictly exceed against-votes, the normalizer yields canonical status
`pending-execution` with display label `"Pending execution"`. -/
theorem queued_passed_is_pending_execution (raw : String) (f a ab q : Nat)
    (hraw : lowerTrim raw = "queued") (hq : 0 < q) (hquorum : q ≤ f + a + ab)
    (hmaj : a < f) :
    canonicalStatus (.jstr raw) f a ab (some q) = "pending-execution" ∧
    (renderStatusFlags (.jstr raw) f a ab (some q)).displayStatus
      = "Pending execution" := by
  have hne : raw ≠ "" := by
    intro h
    rw [h] at hraw
    exact absurd hraw (by decide)
  have hrs : rawStatusOf (.jstr raw) = raw := by simp [rawStatusOf, hne]
  have hflags : renderStatusFlags (.jstr raw) f a ab (some q)
      = statusDetection raw "queued" f a ab q := by
    unfold renderStatusFlags
    rw [hrs]
    show statusDetection raw (lowerTrim raw) f a ab (quorumNumOf (some q)) = _
    rw [hraw]
    rfl
  have hdet := statusDetection_queued_passed raw f a ab q hq hquorum hmaj
  constructor
  · unfold canonicalStatus
    rw [hflags, hdet]
    rfl
  · rw [hflags, hdet]

/-- Witness for C1 at the spec's example: rawStatus `"queued"`, quorum 100,
for 90, against 60. -/
theorem queued_passed_is_pending_execution_witness :
    canonicalStatus (.jstr "queued") 90 60 0 (some 100) = "pending-execution" ∧
    (renderStatusFlags (.jstr "queued") 90 60 0 (some 100)).displayStatus
      = "Pending execution" :=
  queued_passed_is_pending_execution "queued" 90 60 0 100 (by decide)
    (by decide) (by decide) (by decide)

/-- Counterexample for C2 as stated: a `"rejected"` proposal below quorum
(total 40 < 100) keeps its raw status, and so does a `"defeated"` proposal
with zero total votes — neither is reclassified to `quorum-not-reached`. -/
theorem defeat_family_reclassification_cex :
    canonicalStatus (.jstr "rejected") 30 10 0 (some 100) = "rejected" ∧
    canonicalStatus (.jstr "defeated") 0 0 0 (some 100) = "defeated" := by
  decide

/-- On a status of exactly `"defeated"` or `"defeat"` with positive total
votes below a positive quorum, the detection produces the
quorum-not-reached flags. -/
theorem statusDetection_defeated_below (exact st : String) (f a ab q : Nat)
    (hst : st = "defeated" ∨ st = "defeat")
    (hq : 0 < q) (hpos : 0 < f + a + ab) (hlt : f + a + ab < q) :
    statusDetection exact st f a ab q =
      ⟨"Quorum not reached", false, true, false, false, false, false, false,
        "quorum-not-reached"⟩ := by
  have hq1 : decide (0 < q) = true := by simp [hq]
  have hq2 : decide (0 < f + a + ab) = true := by simp [hpos]
  have hq3 : decide (f + a + ab < q) = true := by simp [hlt]
  have hq4 : decide (q ≤ f + a + ab) = false := by simp; omega
  have d1 : rawPendingExecution "defeated" = false := by decide
  have d2 : rawQuorumNotReached "defeated" = false := by decide
  have d3 : rawIsDefeat false "defeated" = true := by decide
  have f1 : rawPendingExecution "defeat" = false := by decide
  have f2 : rawQuorumNotReached "defeat" = false := by decide
  have f3 : rawIsDefeat false "defeat" = true := by decide
  rcases hst with hst | hst <;> subst hst
  · unfold statusDetection
    simp only [d1, d2, d3, hq1, hq2, hq3, hq4]
    simp
  · unfold statusDetection
    simp only [f1, f2, f3, hq1, hq2, hq3, hq4]
    simp

/-- On a defeat-family status with quorum threshold 0, no reclassification
fires and the raw status is kept. -/
theorem statusDetection_defeat_quorum0 (exact st : String) (f a ab : Nat)
    (hst : st = "defeated" ∨ st = "defeat" ∨ st = "rejected") :
    statusDetection exact st f a ab 0 =
      ⟨exact, false, false, false, false, false, false, false,
        "inactive"⟩ := by
  have hq1 : decide (0 < (0 : Nat)) = false := by decide
  have d1 : rawPendingExecution "defeated" = false := by decide
  have d2 : rawQuorumNotReached "defeated" = false := by decide
  have d3 : rawIsDefeat false "defeated" = true := by decide
  have d4 : jsIncludes "defeated" "pending" = false := by decide
  have f1 : rawPendingExecution "defeat" = false := by decide
  have f2 : rawQuorumNotReached "defeat" = false := by decide
  have f3 : rawIsDefeat false "defeat" = true := by decide
  have f4 : jsIncludes "defeat" "pending" = false := by decide
  have r1 : rawPendingExecution "rejected" = false := by decide
  have r2 : rawQuorumNotReached "rejected" = false := by decide
  have r3 : rawIsDefeat false "rejected" = true := by decide
  have r4 : jsIncludes "rejected" "pending" = false := by decide
  rcases hst with hst | hst | hst <;> subst hst
  · unfold statusDetection
    simp only [d1, d2, d3, d4, hq1]
    simp [activeStatuses, executedStatuses, queuedStatuses, pendingStatuses]
  · unfold statusDetection
    simp only [f1, f2, f3, f4, hq1]
    simp [activeStatuses, executedStatuses, queuedStatuses, pendingStatuses]
  · unfold statusDetection
    simp only [r1, r2, r3, r4, hq1]
    simp [activeStatuses, executedStatuses, queuedStatuses, pendingStatuses]

/-- C2 (amended): the quorum reclassification of defeat statuses applies
exactly to raw statuses normalizing to `"defeated"` or `"defeat"`, and only
when the total vote count is positive and below the positive quorum; then
the canonical status is `quorum-not-reached` with label
`"Quorum not reached"`. Other defeat-family statuses (such as `"rejected"`),
and a quorum of 0 or undefined, leave the raw status in place. -/
theorem defeated_below_quorum_reclassified (raw : String) (f a ab q : Nat)
    (hraw : lowerTrim raw = "defeated" ∨ lowerTrim raw = "defeat")
    (hq : 0 < q) (hpos : 0 < f + a + ab) (hlt : f + a + ab < q) :
    (canonicalStatus (.jstr raw) f a ab (some q) = "quorum-not-reached" ∧
      (renderStatusFlags (.jstr raw) f a ab (some q)).displayStatus
        = "Quorum not reached") ∧
    (∀ raw0 : String,
      lowerTrim raw0 = "defeated" ∨ lowerTrim raw0 = "defeat" ∨
        lowerTrim raw0 = "rejected" →
      canonicalStatus (.jstr raw0) f a ab (some 0) = rawStatusOf (.jstr raw0) ∧
      canonicalStatus (.jstr raw0) f a ab none = rawStatusOf (.jstr raw0)) := by
  have hne : raw ≠ "" := by
    intro h
    rw [h] at hraw
    rcases hraw with h1 | h1 <;> exact absurd h1 (by decide)
  have hrs : rawStatusOf (.jstr raw) = raw := by simp [rawStatusOf, hne]
  have hflags : renderStatusFlags (.jstr raw) f a ab (some q)
      = statusDetection raw (lowerTrim raw) f a ab q := by
    unfold renderStatusFlags
    rw [hrs]
    rfl
  have hdet := statusDetection_defeated_below raw (lowerTrim raw) f a ab q
    hraw hq hpos hlt
  refine ⟨⟨?_, ?_⟩, ?_⟩
  · unfold canonicalStatus
    rw [hflags, hdet]
    rfl
  · rw [hflags, hdet]
  · intro raw0 hraw0
    have hne0 : raw0 ≠ "" := by
      intro h
      rw [h] at hraw0
      rcases hraw0 with h1 | h1 | h1 <;> exact absurd h1 (by decide)
    have hrs0 : rawStatusOf (.jstr raw0) = raw0 := by simp [rawStatusOf, hne0]
    have hflags0 : renderStatusFlags (.jstr raw0) f a ab (some 0)
        = statusDetection raw0 (lowerTrim raw0) f a ab 0 := by
      unfold renderStatusFlags
      rw [hrs0]
      rfl
    have hflagsN : renderStatusFlags (.jstr raw0) f a ab none
        = statusDetection raw0 (lowerTrim raw0) f a ab 0 := by
      unfold renderStatusFlags
      rw [hrs0]
      rfl
    have hdet0 := statusDetection_defeat_quorum0 raw0 (lowerTrim raw0) f a ab hraw0
    constructor
    · unfold canonicalStatus
      rw [hflags0, hdet0, hrs0]
      rfl
    · unfold canonicalStatus
      rw [hflagsN, hdet0, hrs0]
      rfl

/-! ## Theorems for C3 -/

/-- Splitting off the head of a `range`-map over shifted indices. -/
theorem range_map_shift {α : Type} (g : Nat → α) (a m : Nat) :
    (List.range (m + 1)).map (fun j => g (a + j))
      = g a :: (List.range m).map (fun j => g (a + 1 + j)) := by
  rw [List.range_succ_eq_map, List.map_cons, List.map_map]
  refine congrArg₂ _ (by simp) ?_
  apply List.map_congr_left
  intro j _
  simp only [Function.comp_apply]
  congr 1
  omega

/-- If every remaining attempt fails with a transient error, the retry loop
performs exactly the remaining attempts, awaits `baseDelay * 2 ^ i` after
each non-final attempt `i`, records each retried error as handled, and exits
with the last attempt's error. -/
theorem retryLoop_allFail (oracle : Nat → Except JsError Unit)
    (es : Nat → JsError) (maxRetries baseDelay : Nat)
    (hfail : ∀ i, i < maxRetries → oracle i = .error (es i))
    (htrans : ∀ i, i < maxRetries →
      (es i).name = "AbortError" ∨ isNetworkError (es i) = true) :
    ∀ fuel attempt, fuel = maxRetries - attempt → attempt < maxRetries →
      retryLoop oracle maxRetries baseDelay fuel attempt =
        ⟨maxRetries - attempt,
          (List.range (maxRetries - 1 - attempt)).map
            (fun j => baseDelay * 2 ^ (attempt + j)),
          .failed (es (maxRetries - 1)),
          (List.range (maxRetries - 1 - attempt)).map
            (fun j => es (attempt + j))⟩ := by
  intro fuel
  induction fuel with
  | zero =>
    intro attempt hfa hlt
    omega
  | succ fuel ih =>
    intro attempt hfa hlt
    rw [retryLoop, hfail attempt hlt]
    dsimp only
    by_cases hlast : attempt < maxRetries - 1
    · have hrec := ih (attempt + 1) (by omega) (by omega)
      have hm : maxRetries - 1 - attempt
          = (maxRetries - 1 - (attempt + 1)) + 1 := by omega
      have hdelays := range_map_shift (fun n => baseDelay * 2 ^ n)
        attempt (maxRetries - 1 - (attempt + 1))
      have hhandled := range_map_shift es attempt (maxRetries - 1 - (attempt + 1))
      rcases htrans attempt hlt with habort | hnet
      · rw [if_pos habort]
        rw [if_pos hlast]
        simp only [hrec, RetryTrace.mk.injEq]
        refine ⟨by omega, ?_, trivial, ?_⟩
        · rw [hm, hdelays]
        · rw [hm, hhandled]
      · by_cases habort : (es attempt).name = "AbortError"
        · rw [if_pos habort]
          rw [if_pos hlast]
          simp only [hrec, RetryTrace.mk.injEq]
          refine ⟨by omega, ?_, trivial, ?_⟩
          · rw [hm, hdelays]
          · rw [hm, hhandled]
        · rw [if_neg habort]
          rw [if_pos ⟨hnet, hlast⟩]
          simp only [hrec, RetryTrace.mk.injEq]
          refine ⟨by omega, ?_, trivial, ?_⟩
          · rw [hm, hdelays]
          · rw [hm, hhandled]
    · have ha : attempt = maxRetries - 1 := by omega
      have hz : maxRetries - 1 - attempt = 0 := by omega
      have h1 : maxRetries - attempt = 1 := by omega
      rcases htrans attempt hlt with habort | hnet
      · rw [if_pos habort]
        rw [if_neg hlast]
        rw [h1, hz, ha]
        simp
      · by_cases habort : (es attempt).name = "AbortError"
        · rw [if_pos habort]
          rw [if_neg hlast]
          rw [h1, hz, ha]
          simp
        · rw [if_neg habort]
          rw [if_neg (by intro hc; exact hlast hc.2)]
          rw [h1, hz, ha]
          simp

/-- C3: when every attempt fails with a transient (timeout/network) error,
`fetchWithRetry` makes exactly `maxRetries` fetch attempts, inserts a delay
of `baseDelay * 2 ^ i` between attempt `i` and `i + 1` (none after the final
attempt), and throws a wrapping error carrying the attempt count and the URL
with the last error as its `cause`. -/
theorem fetchWithRetry_transient_exhaustion (oracle : Nat → Except JsError Unit)
    (es : Nat → JsError) (url : String) (maxRetries baseDelay : Nat)
    (hmax : 1 ≤ maxRetries)
    (hfail : ∀ i, i < maxRetries → oracle i = .error (es i))
    (htrans : ∀ i, i < maxRetries →
      (es i).name = "AbortError" ∨ isNetworkError (es i) = true) :
    (fetchWithRetry oracle url maxRetries baseDelay).1.attempts = maxRetries ∧
    (fetchWithRetry oracle url maxRetries baseDelay).1.delays
      = (List.range (maxRetries - 1)).map (fun i => baseDelay * 2 ^ i) ∧
    (fetchWithRetry oracle url maxRetries baseDelay).2
      = .error ⟨(if (es (maxRetries - 1)).name = ""
            then "NetworkError" else (es (maxRetries - 1)).name),
          "Failed to fetch after " ++ toString maxRetries ++ " attempts: "
            ++ jsErrorText (es (maxRetries - 1)) ++ ". URL: " ++ url,
          some (es (maxRetries - 1))⟩ := by
  have h := retryLoop_allFail oracle es maxRetries baseDelay hfail htrans
    maxRetries 0 (by omega) (by omega)
  unfold fetchWithRetry
  rw [h]
  simp

/-- Witness for C3: three attempts all timing out, base delay 1000 ms. -/
theorem fetchWithRetry_transient_exhaustion_witness :
    (fetchWithRetry (fun _ => .error ⟨"AbortError", "timeout"⟩)
      "https://api.example/graphql" 3 1000).1.attempts = 3 ∧
    (fetchWithRetry (fun _ => .error ⟨"AbortError", "timeout"⟩)
      "https://api.example/graphql" 3 1000).1.delays = [1000, 2000] ∧
    (fetchWithRetry (fun _ => .error ⟨"AbortError", "timeout"⟩)
      "https://api.example/graphql" 3 1000).2
      = .error ⟨"AbortError",
          "Failed to fetch after 3 attempts: timeout. URL: https://api.example/graphql",
          some ⟨"AbortError", "timeout"⟩⟩ := by
  have h := fetchWithRetry_transient_exhaustion
    (fun _ => .error ⟨"AbortError", "timeout"⟩)
    (fun _ => ⟨"AbortError", "timeout"⟩)
    "https://api.example/graphql" 3 1000 (by decide)
    (fun _ _ => rfl) (fun _ _ => Or.inl rfl)
  refine ⟨h.1, ?_, ?_⟩
  · rw [h.2.1]
    decide
  · rw [h.2.2]
    congr 1

/-- Witness for C2 (amended) at the spec's example (`"defeated"`, quorum 100,
total 40) plus the disabled-reclassification side at `"rejected"`. -/
theorem defeated_below_quorum_reclassified_witness :
    canonicalStatus (.jstr "defeated") 30 10 0 (some 100) = "quorum-not-reached"
    ∧ (renderStatusFlags (.jstr "defeated") 30 10 0 (some 100)).displayStatus
      = "Quorum not reached"
    ∧ canonicalStatus (.jstr "rejected") 30 10 0 none = "rejected" := by
  have h := defeated_below_quorum_reclassified "defeated" 30 10 0 100
    (Or.inl (by decide)) (by decide) (by decide) (by decide)
  refine ⟨h.1.1, h.1.2, ?_⟩
  have h2 := (h.2 "rejected" (Or.inr (Or.inr (by decide)))).2
  rw [show rawStatusOf (.jstr "rejected") = "rejected" from by decide] at h2
  exact h2

/-! ## Theorem for C4 -/

/-- The catch recovery always returns a value. -/
theorem jsCatchOpt_total {α : Type} (x : Except JsException (Option α)) :
    ∃ v, jsCatchOpt x = .ok v := by
  cases x with
  | ok v => exact ⟨v, rfl⟩
  | error _ => exact ⟨none, rfl⟩

/-- The Snapshot extractor never propagates an exception. -/
theorem extractSnapshotProposalInfo_total (pr : UrlPrims) (url : String) :
    ∃ v, extractSnapshotProposalInfo pr url = .ok v := by
  unfold extractSnapshotProposalInfo
  exact jsCatchOpt_total _

/-- The AIP extractor never propagates an exception. -/
theorem extractAIPProposalInfo_total (pr : UrlPrims) (url : String) :
    ∃ v, extractAIPProposalInfo pr url = .ok v := by
  unfold extractAIPProposalInfo
  exact jsCatchOpt_total _

/-- C4: for every input string and every behaviour of the URL/parse
primitives (including a throwing `new URL`), `extractProposalInfo` and both
per-platform extractors return a value (an identifier or null) and never
propagate an exception. -/
theorem extractProposalInfo_total (pr : UrlPrims) (url : String) :
    (∃ v, extractProposalInfo pr url = .ok v) ∧
    (∃ v, extractSnapshotProposalInfo pr url = .ok v) ∧
    (∃ v, extractAIPProposalInfo pr url = .ok v) := by
  refine ⟨?_, extractSnapshotProposalInfo_total pr url,
    extractAIPProposalInfo_total pr url⟩
  unfold extractProposalInfo
  by_cases hu : url = ""
  · simp [hu, pure, Except.pure]
  · obtain ⟨vs, hvs⟩ := extractSnapshotProposalInfo_total pr url
    obtain ⟨va, hva⟩ := extractAIPProposalInfo_total pr url
    cases vs <;>
      cases va <;>
        simp [hvs, hva, hu, Bind.bind, Except.bind, pure, Except.pure]


/-! ## Theorems for C7 and C6 -/

/-- C7: every raw vote value from the indexed source is converted by exact
truncating integer division by `10 ^ 18`, and a proposal whose subgraph
response carries no vote data at all (`votes` null) gets `null` for/against
values, not 0. -/
theorem subgraph_vote_scaling :
    (∀ sf sa : String, sf ≠ "" → sa ≠ "" →
      subgraphVotesConversion (.vobj (some sf) (some sa))
        = (some (toString (digitsToNat sf / 10 ^ 18)),
            some (toString (digitsToNat sa / 10 ^ 18)), "0")) ∧
    subgraphVotesConversion .jnull = (none, none, "0") := by
  constructor
  · intro sf sa hsf hsa
    unfold subgraphVotesConversion
    simp [truthyStr, hsf, hsa]
  · rfl

/-- Witness for C7: `"5000000000000000000"` converts to `"5"`, and so does
`"5999999999999999999"` (truncation, not rounding); null votes propagate. -/
theorem subgraph_vote_scaling_witness :
    subgraphVotesConversion
      (.vobj (some "5000000000000000000") (some "5999999999999999999"))
      = (some "5", some "5", "0") ∧
    subgraphVotesConversion .jnull = (none, none, "0") := by
  have h1 := subgraph_vote_scaling.1 "5000000000000000000"
    "5999999999999999999" (by decide) (by decide)
  refine ⟨?_, subgraph_vote_scaling.2⟩
  rw [h1]
  decide

/-- Merge with a document payload present: content from the document with
on-chain fill-in; votes/status/extras straight from on-chain. -/
theorem mergeProposalData_some_md (oc : OnChainRec) (m : MarkdownRec)
    (sg : Option SubgraphRec) :
    mergeProposalData oc (some m) sg =
      { title := jsOrF m.title oc.title,
        description := jsOrF m.description oc.description,
        forVotes := oc.forVotes, againstVotes := oc.againstVotes,
        status := oc.status, creator := oc.creator,
        votingDuration := oc.votingDuration, ipfsHash := oc.ipfsHash,
        markdown := m.markdown, markdownMetadata := m.metadata,
        contentSource := some "markdown", dataSource := "on-chain" } := by
  unfold mergeProposalData
  dsimp only
  split_ifs <;> rfl

/-- Merge with no document but an indexed payload. -/
theorem mergeProposalData_some_sg (oc : OnChainRec) (s : SubgraphRec) :
    mergeProposalData oc none (some s) =
      { title := jsOrF s.title oc.title,
        description := jsOrF s.description oc.description,
        forVotes :=
          if oc.forVotes ≠ .undef then oc.forVotes
          else if !oc.forVotes.truthy && s.forVotes.truthy then s.forVotes
          else oc.forVotes,
        againstVotes :=
          if oc.againstVotes ≠ .undef then oc.againstVotes
          else if !oc.againstVotes.truthy && s.againstVotes.truthy then
            s.againstVotes
          else oc.againstVotes,
        status := oc.status,
        creator :=
          if s.creator.truthy && !oc.creator.truthy then s.creator
          else oc.creator,
        votingDuration :=
          if s.votingDuration.truthy && !oc.votingDuration.truthy then
            s.votingDuration
          else oc.votingDuration,
        ipfsHash :=
          if s.ipfsHash.truthy && !oc.ipfsHash.truthy then s.ipfsHash
          else oc.ipfsHash,
        markdown := .undef, markdownMetadata := .undef,
        contentSource := some "subgraph", dataSource := "on-chain" } := by
  unfold mergeProposalData
  dsimp only
  rw [applySubgraphFallbacks_eq]
  dsimp only
  split_ifs <;> rfl

/-- Merge with neither document nor indexed payload. -/
theorem mergeProposalData_none (oc : OnChainRec) :
    mergeProposalData oc none none =
      { title := oc.title, description := oc.description,
        forVotes := oc.forVotes, againstVotes := oc.againstVotes,
        status := oc.status, creator := oc.creator,
        votingDuration := oc.votingDuration, ipfsHash := oc.ipfsHash,
        markdown := .undef, markdownMetadata := .undef,
        contentSource := none, dataSource := "on-chain" } := by
  unfold mergeProposalData
  dsimp only
  split_ifs <;> rfl

/-- Counterexample for C6 as stated: with a document payload present but
carrying no title/description, the merge keeps the on-chain defaults and
never consults the indexed title `"X"` — the precedence
document > indexed > on-chain does not hold field-wise. -/
theorem mergeProposalData_cex :
    (mergeProposalData
      ⟨.jstr "Proposal 7", .jstr "Aave Governance Proposal 7", .jstr "10",
        .jstr "5", .jstr "executed", .undef, .undef, .undef⟩
      (some ⟨.jnull, .jnull, .jstr "body", .jobj⟩)
      (some ⟨.jstr "X", .jstr "D", .jstr "3", .jstr "2", .jnull, .jnull,
        .jnull⟩)).title = .jstr "Proposal 7" ∧
    JField.jstr "Proposal 7" ≠ JField.jstr "X" := by
  decide

/-- C6 (amended): merge precedence is at payload level — a present document
payload supplies title/description (with on-chain fill-in for its missing
fields) and the indexed payload is then not consulted for content; without a
document the indexed payload supplies them the same way; votes and status
come from on-chain whenever the on-chain payload carries the field, and
indexed votes are used only when on-chain omits the field (no document
present); the provenance tag is always `on-chain`. -/
theorem mergeProposalData_spec (oc : OnChainRec) (md : Option MarkdownRec)
    (sg : Option SubgraphRec) :
    ((∀ m, md = some m →
        (mergeProposalData oc md sg).title = jsOrF m.title oc.title ∧
        (mergeProposalData oc md sg).description
          = jsOrF m.description oc.description ∧
        (mergeProposalData oc md sg).contentSource = some "markdown") ∧
      (md = none → ∀ s, sg = some s →
        (mergeProposalData oc md sg).title = jsOrF s.title oc.title ∧
        (mergeProposalData oc md sg).description
          = jsOrF s.description oc.description ∧
        (mergeProposalData oc md sg).contentSource = some "subgraph") ∧
      (md = none → sg = none →
        (mergeProposalData oc md sg).title = oc.title ∧
        (mergeProposalData oc md sg).description = oc.description)) ∧
    ((oc.forVotes ≠ .undef →
        (mergeProposalData oc md sg).forVotes = oc.forVotes) ∧
      (oc.againstVotes ≠ .undef →
        (mergeProposalData oc md sg).againstVotes = oc.againstVotes) ∧
      (oc.status ≠ .undef →
        (mergeProposalData oc md sg).status = oc.status) ∧
      (oc.forVotes = .undef → md = none → ∀ s, sg = some s →
        s.forVotes.truthy = true →
        (mergeProposalData oc md sg).forVotes = s.forVotes)) ∧
    (mergeProposalData oc md sg).dataSource = "on-chain" := by
  refine ⟨⟨?_, ?_, ?_⟩, ⟨?_, ?_, ?_, ?_⟩, ?_⟩
  · intro m hm
    subst hm
    rw [mergeProposalData_some_md]
    exact ⟨rfl, rfl, rfl⟩
  · intro hmd s hs
    subst hmd
    subst hs
    rw [mergeProposalData_some_sg]
    exact ⟨rfl, rfl, rfl⟩
  · intro hmd hsg
    subst hmd
    subst hsg
    rw [mergeProposalData_none]
    exact ⟨rfl, rfl⟩
  · intro hoc
    rcases md with _ | m
    · rcases sg with _ | s
      · rw [mergeProposalData_none]
      · rw [mergeProposalData_some_sg]
        dsimp only
        rw [if_pos hoc]
    · rw [mergeProposalData_some_md]
  · intro hoc
    rcases md with _ | m
    · rcases sg with _ | s
      · rw [mergeProposalData_none]
      · rw [mergeProposalData_some_sg]
        dsimp only
        rw [if_pos hoc]
    · rw [mergeProposalData_some_md]
  · intro _
    rcases md with _ | m
    · rcases sg with _ | s
      · rw [mergeProposalData_none]
      · rw [mergeProposalData_some_sg]
    · rw [mergeProposalData_some_md]
  · intro hoc hmd s hs htr
    subst hmd
    subst hs
    rw [mergeProposalData_some_sg]
    dsimp only
    rw [if_neg (by simp [hoc])]
    rw [hoc]
    rw [if_pos (show (!JField.undef.truthy && s.forVotes.truthy) = true by
      simp [htr]
      rfl)]
  · rcases md with _ | m
    · rcases sg with _ | s
      · rw [mergeProposalData_none]
      · rw [mergeProposalData_some_sg]
    · rw [mergeProposalData_some_md]

/-- Witness for C6 (amended) at the spec's example: on-chain votes
for 10 / against 5 and status executed, indexed title `"X"`, no document. -/
theorem mergeProposalData_spec_witness :
    (mergeProposalData
      ⟨.jstr "Proposal 7", .jstr "Aave Governance Proposal 7", .jstr "10",
        .jstr "5", .jstr "executed", .undef, .undef, .undef⟩
      none
      (some ⟨.jstr "X", .jnull, .jstr "3", .jstr "2", .jnull, .jnull,
        .jnull⟩)).title = .jstr "X" ∧
    (mergeProposalData
      ⟨.jstr "Proposal 7", .jstr "Aave Governance Proposal 7", .jstr "10",
        .jstr "5", .jstr "executed", .undef, .undef, .undef⟩
      none
      (some ⟨.jstr "X", .jnull, .jstr "3", .jstr "2", .jnull, .jnull,
        .jnull⟩)).forVotes = .jstr "10" ∧
    (mergeProposalData
      ⟨.jstr "Proposal 7", .jstr "Aave Governance Proposal 7", .jstr "10",
        .jstr "5", .jstr "executed", .undef, .undef, .undef⟩
      none
      (some ⟨.jstr "X", .jnull, .jstr "3", .jstr "2", .jnull, .jnull,
        .jnull⟩)).againstVotes = .jstr "5" ∧
    (mergeProposalData
      ⟨.jstr "Proposal 7", .jstr "Aave Governance Proposal 7", .jstr "10",
        .jstr "5", .jstr "executed", .undef, .undef, .undef⟩
      none
      (some ⟨.jstr "X", .jnull, .jstr "3", .jstr "2", .jnull, .jnull,
        .jnull⟩)).status = .jstr "executed" := by
  have h := mergeProposalData_spec
    ⟨.jstr "Proposal 7", .jstr "Aave Governance Proposal 7", .jstr "10",
      .jstr "5", .jstr "executed", .undef, .undef, .undef⟩
    none
    (some ⟨.jstr "X", .jnull, .jstr "3", .jstr "2", .jnull, .jnull, .jnull⟩)
  refine ⟨?_, ?_, ?_, ?_⟩
  · have ht := (h.1.2.1 rfl _ rfl).1
    rw [ht]
    decide
  · exact h.2.1.1 (by decide)
  · exact h.2.1.2.1 (by decide)
  · exact h.2.1.2.2.1 (by decide)



/-! ## Priority selector (`getStatePriority` and `selectTopProposals`,
url-parser.js:232-349)

`Array.prototype.sort` with the two-key comparator is a stable sort; for a
total, transitive comparator the stable result is unique, so it is embedded
as an insertion sort that keeps earlier elements first on ties. -/

/-- A candidate proposal as the selector sees it. -/
structure SelProposal where
  status : Option String
  stage : Option String
  ptype : Option String
  originalOrder : Int
  deriving DecidableEq, Repr

/-- `getStatePriority` (url-parser.js:232-285): lower score = shown first. -/
def getStatePriority (status : Option String) : Nat :=
  let normalizedStatus := lowerTrim (status.getD "")
  if normalizedStatus = "active" ∨ normalizedStatus = "open" ∨
      normalizedStatus = "voting" then 1
  else if normalizedStatus = "created" then 2
  else if normalizedStatus = "pending" ∨
      normalizedStatus = "pendingexecution" ∨
      jsIncludes normalizedStatus "pending execution" = true ∨
      normalizedStatus = "queued" then 3
  else if normalizedStatus = "executed" ∨
      normalizedStatus = "crosschainexecuted" ∨
      normalizedStatus = "completed" ∨ normalizedStatus = "passed" then 4
  else if normalizedStatus = "closed" ∨ normalizedStatus = "ended" ∨
      normalizedStatus = "expired" then 5
  else if normalizedStatus = "failed" ∨ normalizedStatus = "defeated" ∨
      normalizedStatus = "defeat" ∨ normalizedStatus = "rejected" ∨
      jsIncludes normalizedStatus "quorum not reached" = true ∨
      normalizedStatus = "cancelled" then 6
  else 7

/-- The comparator order of url-parser.js:288-297 as a proposition: priority
ascending, ties broken by original order of appearance. -/
def selKeyLe (a b : SelProposal) : Prop :=
  getStatePriority a.status < getStatePriority b.status ∨
  (getStatePriority a.status = getStatePriority b.status ∧
    a.originalOrder ≤ b.originalOrder)

instance (a b : SelProposal) : Decidable (selKeyLe a b) := by
  unfold selKeyLe
  infer_instance

/-- The comparator as a Bool. -/
def selCmpLe (a b : SelProposal) : Bool :=
  decide (selKeyLe a b)

/-- Stable insertion keeping existing elements first unless strictly
required later. -/
def insertBy {α : Type} (le : α → α → Bool) (x : α) : List α → List α
  | [] => [x]
  | y :: ys => if le x y then x :: y :: ys else y :: insertBy le x ys

/-- Stable insertion sort (the embedding of the source's stable
`Array.prototype.sort`). -/
def insertionSort {α : Type} (le : α → α → Bool) : List α → List α
  | [] => []
  | x :: xs => insertBy le x (insertionSort le xs)

/-- url-parser.js:288-297: the sorted candidate list. -/
def sortProposals (l : List SelProposal) : List SelProposal :=
  insertionSort selCmpLe l

/-- url-parser.js:299-306 and 319-325: the type bucket of a candidate,
`p.stage || p.type || "arfc"` folded onto the three counters. -/
def bucketKey (p : SelProposal) : String :=
  let proposalType :=
    if truthyStr p.stage then p.stage.getD ""
    else if truthyStr p.ptype then p.ptype.getD ""
    else "arfc"
  if proposalType = "temp-check" then "tempcheck"
  else if proposalType = "aip" then "aip"
  else "arfc"

/-- The `typeCounts` object (url-parser.js:311). -/
structure TypeCounts where
  tempcheck : Nat
  arfc : Nat
  aip : Nat
  deriving DecidableEq, Repr

/-- Read a counter by bucket key. -/
def countsGet (c : TypeCounts) (k : String) : Nat :=
  if k = "tempcheck" then c.tempcheck
  else if k = "aip" then c.aip
  else c.arfc

/-- `typeCounts[typeKey]++`. -/
def countsBump (c : TypeCounts) (k : String) : TypeCounts :=
  if k = "tempcheck" then { c with tempcheck := c.tempcheck + 1 }
  else if k = "aip" then { c with aip := c.aip + 1 }
  else { c with arfc := c.arfc + 1 }

/-- The selection loop (url-parser.js:314-336): stop at 3 selected; add a
candidate when its bucket is below the cap (or nothing was selected yet). -/
def selectGo (maxPerType : Nat) :
    List SelProposal → TypeCounts → Nat → List SelProposal
  | [], _, _ => []
  | p :: rest, counts, selLen =>
    if 3 ≤ selLen then []
    else
      let typeKey := bucketKey p
      let canAdd := countsGet counts typeKey < maxPerType ∨
        (selLen < 3 ∧ counts.tempcheck = 0 ∧ counts.arfc = 0 ∧ counts.aip = 0)
      if canAdd then
        p :: selectGo maxPerType rest (countsBump counts typeKey) (selLen + 1)
      else selectGo maxPerType rest counts selLen

/-- `selectTopProposals` (url-parser.js:287-349): sort, compute the distinct
type buckets (`[...new Set(allTypes)]`), allow 3 per bucket when a single
bucket occurs and 2 otherwise, and greedily select up to 3. -/
def selectTopProposals (proposalsList : List SelProposal) : List SelProposal :=
  let sorted := sortProposals proposalsList
  let allTypes := sorted.map bucketKey
  let uniqueTypes := allTypes.dedup
  let isSingleType := uniqueTypes.length = 1
  let maxPerType := if isSingleType then 3 else 2
  selectGo maxPerType sorted ⟨0, 0, 0⟩ 0

/-- Number of selected proposals in bucket `k`. -/
def countB (l : List SelProposal) (k : String) : Nat :=
  (l.filter (fun p => bucketKey p = k)).length

/-- Sum of the three counters. -/
def countsTotal (c : TypeCounts) : Nat :=
  c.tempcheck + c.arfc + c.aip

/-! ## Theorems for C9 -/

/-- Counterexample for C9 as stated: with every source unavailable, the
Tally resolver returns a substitute record titled `"Tally Proposal"` (with
status `"unknown"` and zero vote stats), not null. -/
theorem resolve_null_cex :
    fetchProposalData none 0 (some "123")
      (some "https://tally.xyz/gov/x/proposal/123") none none
      (.ok none) (.ok none) false
      = .ok (tallyFallback (some "123")
          (some "https://tally.xyz/gov/x/proposal/123")) ∧
    (tallyFallback (some "123")
      (some "https://tally.xyz/gov/x/proposal/123")).title
      = some "Tally Proposal" := by
  constructor
  · rfl
  · rfl

/-- C9 (amended): when every applicable source is unavailable, the AIP
resolver returns null without throwing and writes nothing to the cache
(tier failures, including thrown ones, are absorbed); the Tally resolver
never throws when its fetchers resolve, but returns the fallback placeholder
record (title `"Tally Proposal"`) instead of null. -/
theorem resolve_total_failure (α : Type)
    (sf ocf : Except JsException (Option α)) (us : String) (now : Int)
    (hsf : sf = .ok none ∨ ∃ e, sf = .error e)
    (hocf : ocf = .ok none ∨ ∃ e, ocf = .error e) :
    fetchAIPProposal sf ocf us now = (.ok none, none) ∧
    (∀ (pid u gid upn : Option String) (r1 r2 : Option TallyRec) (t : Int),
      tallyResultValid r1 = false → tallyResultValid r2 = false →
      fetchProposalData none t pid u gid upn (.ok r1) (.ok r2) false
        = .ok (tallyFallback pid u)) := by
  constructor
  · rcases hsf with h | ⟨e, h⟩ <;> subst h
    · rcases hocf with h2 | ⟨e2, h2⟩ <;> subst h2 <;>
        simp [fetchAIPProposal, Bind.bind, Except.bind, pure, Except.pure]
    · simp [fetchAIPProposal, Bind.bind, Except.bind, pure, Except.pure]
  · intro pid u gid upn r1 r2 t h1 h2
    unfold fetchProposalData
    dsimp only
    split_ifs <;>
      simp [Bind.bind, Except.bind, h1, h2]

/-- Witness for C9 (amended): an unavailable subgraph, a throwing on-chain
tier, and a Tally run whose both fetchers resolve null. -/
theorem resolve_total_failure_witness :
    fetchAIPProposal (Except.ok (none : Option Nat))
      (Except.error ⟨"boom"⟩) "app.aave.com" 17 = (.ok none, none) ∧
    fetchProposalData none 0 (some "123") (some "u") none none
      (.ok none) (.ok none) false = .ok (tallyFallback (some "123") (some "u")) := by
  have h := resolve_total_failure Nat (Except.ok none) (Except.error ⟨"boom"⟩)
    "app.aave.com" 17 (Or.inl rfl) (Or.inr ⟨⟨"boom"⟩, rfl⟩)
  exact ⟨h.1, h.2 (some "123") (some "u") none none none none 0 rfl rfl⟩


/-! ## Theorems for C8: sorting -/

/-- Insertion produces a permutation. -/
theorem insertBy_perm {α : Type} (le : α → α → Bool) (x : α) :
    ∀ l : List α, List.Perm (insertBy le x l) (x :: l) := by
  intro l
  induction l with
  | nil => exact List.Perm.refl _
  | cons y ys ih =>
    rw [insertBy]
    by_cases h : le x y = true
    · rw [if_pos h]
    · rw [if_neg h]
      exact (ih.cons y).trans (List.Perm.swap x y ys)

/-- Insertion sort produces a permutation. -/
theorem insertionSort_perm {α : Type} (le : α → α → Bool) :
    ∀ l : List α, List.Perm (insertionSort le l) l := by
  intro l
  induction l with
  | nil => exact List.Perm.refl _
  | cons x xs ih =>
    rw [insertionSort]
    exact (insertBy_perm le x (insertionSort le xs)).trans (ih.cons x)

/-- Insertion preserves sortedness for a transitive, total comparator. -/
theorem insertBy_pairwise {α : Type} (le : α → α → Bool)
    (htrans : ∀ a b c, le a b = true → le b c = true → le a c = true)
    (htotal : ∀ a b, le a b = true ∨ le b a = true) (x : α) :
    ∀ l : List α, l.Pairwise (fun a b => le a b = true) →
      (insertBy le x l).Pairwise (fun a b => le a b = true) := by
  intro l
  induction l with
  | nil =>
    intro _
    exact List.pairwise_singleton _ _
  | cons y ys ih =>
    intro hp
    rcases List.pairwise_cons.1 hp with ⟨hy, hys⟩
    rw [insertBy]
    by_cases h : le x y = true
    · rw [if_pos h]
      refine List.pairwise_cons.2 ⟨?_, hp⟩
      intro z hz
      rcases List.mem_cons.1 hz with hzx | hz2
      · subst hzx
        exact h
      · exact htrans x y z h (hy z hz2)
    · rw [if_neg h]
      refine List.pairwise_cons.2 ⟨?_, ih hys⟩
      intro z hz
      rcases List.mem_cons.1 ((insertBy_perm le x ys).mem_iff.1 hz)
        with hzx | hz2
      · subst hzx
        rcases htotal z y with hxy | hyx
        · exact absurd hxy h
        · exact hyx
      · exact hy z hz2

/-- Insertion sort sorts, for a transitive, total comparator. -/
theorem insertionSort_pairwise {α : Type} (le : α → α → Bool)
    (htrans : ∀ a b c, le a b = true → le b c = true → le a c = true)
    (htotal : ∀ a b, le a b = true ∨ le b a = true) :
    ∀ l : List α,
      (insertionSort le l).Pairwise (fun a b => le a b = true) := by
  intro l
  induction l with
  | nil => exact List.Pairwise.nil
  | cons x xs ih =>
    rw [insertionSort]
    exact insertBy_pairwise le htrans htotal x _ ih

/-- The selector's comparator is transitive. -/
theorem selKeyLe_trans (a b c : SelProposal) :
    selKeyLe a b → selKeyLe b c → selKeyLe a c := by
  unfold selKeyLe
  omega

/-- The selector's comparator is total. -/
theorem selKeyLe_total (a b : SelProposal) : selKeyLe a b ∨ selKeyLe b a := by
  unfold selKeyLe
  omega

/-- The sorted candidate list is a permutation of the input. -/
theorem sortProposals_perm (l : List SelProposal) :
    List.Perm (sortProposals l) l :=
  insertionSort_perm selCmpLe l

/-- The sorted candidate list is ordered by priority ascending with ties
broken by original order. -/
theorem sortProposals_sorted (l : List SelProposal) :
    (sortProposals l).Pairwise selKeyLe := by
  have h := insertionSort_pairwise selCmpLe
    (fun a b c hab hbc => decide_eq_true
      (selKeyLe_trans a b c (of_decide_eq_true hab) (of_decide_eq_true hbc)))
    (fun a b => by
      rcases selKeyLe_total a b with h | h
      · exact Or.inl (decide_eq_true h)
      · exact Or.inr (decide_eq_true h)) l
  exact h.imp (fun hab => of_decide_eq_true hab)


/-! ## Theorems for C8: the selection loop -/

/-- The selection is a subsequence of its input list. -/
theorem selectGo_sublist (m : Nat) :
    ∀ (l : List SelProposal) (counts : TypeCounts) (n : Nat),
      (selectGo m l counts n).Sublist l := by
  intro l
  induction l with
  | nil =>
    intro counts n
    exact List.Sublist.refl []
  | cons p rest ih =>
    intro counts n
    rw [selectGo]
    by_cases h3 : 3 ≤ n
    · rw [if_pos h3]
      exact List.nil_sublist _
    · rw [if_neg h3]
      dsimp only
      by_cases hca : countsGet counts (bucketKey p) < m ∨
        (n < 3 ∧ counts.tempcheck = 0 ∧ counts.arfc = 0 ∧ counts.aip = 0)
      · rw [if_pos hca]
        exact (ih _ _).cons₂ p
      · rw [if_neg hca]
        exact (ih _ _).cons p

/-- Every bucket key is one of the three counters. -/
theorem bucketKey_valid (p : SelProposal) :
    bucketKey p = "tempcheck" ∨ bucketKey p = "aip" ∨
      bucketKey p = "arfc" := by
  unfold bucketKey
  dsimp only
  split_ifs <;> simp

/-- Reading a counter after a bump. -/
theorem countsGet_bump (c : TypeCounts) (k0 k : String)
    (h0 : k0 = "tempcheck" ∨ k0 = "aip" ∨ k0 = "arfc")
    (hk : k = "tempcheck" ∨ k = "aip" ∨ k = "arfc") :
    countsGet (countsBump c k0) k
      = countsGet c k + (if k0 = k then 1 else 0) := by
  rcases h0 with h0 | h0 | h0 <;> rcases hk with hk | hk | hk <;>
    subst h0 <;> subst hk <;> simp [countsGet, countsBump]

/-- A bump raises the total by one. -/
theorem countsTotal_bump (c : TypeCounts) (k0 : String) :
    countsTotal (countsBump c k0) = countsTotal c + 1 := by
  unfold countsBump countsTotal
  split_ifs <;> simp <;> omega

/-- A counter is bounded by the total. -/
theorem countsGet_le_total (c : TypeCounts) (k : String)
    (hk : k = "tempcheck" ∨ k = "aip" ∨ k = "arfc") :
    countsGet c k ≤ countsTotal c := by
  rcases hk with hk | hk | hk <;> subst hk <;>
    simp [countsGet, countsTotal] <;> omega

/-- If one counter holds the whole total, the others are zero. -/
theorem countsGet_eq_total_other (c : TypeCounts) (b k : String)
    (hb : b = "tempcheck" ∨ b = "aip" ∨ b = "arfc")
    (hk : k = "tempcheck" ∨ k = "aip" ∨ k = "arfc") (hne : b ≠ k)
    (h : countsGet c b = countsTotal c) : countsGet c k = 0 := by
  rcases hb with hb | hb | hb <;> rcases hk with hk | hk | hk <;>
    subst hb <;> subst hk <;>
    simp [countsGet, countsTotal] at h hne ⊢ <;> omega

/-- Bucket count of a cons. -/
theorem countB_cons (p : SelProposal) (l : List SelProposal) (k : String) :
    countB (p :: l) k = countB l k + (if bucketKey p = k then 1 else 0) := by
  unfold countB
  rw [List.filter_cons]
  split_ifs with h1 h2 h3
  · simp
  · simp at h1
    exact absurd h1 h2
  · simp at h1
    exact absurd h3 h1
  · simp

/-- Per-bucket cap of the selection loop: the selection never pushes a
bucket's counter beyond `maxPerType`. -/
theorem selectGo_cap (m : Nat) (hm : 0 < m) :
    ∀ (l : List SelProposal) (counts : TypeCounts) (n : Nat) (k : String),
      (k = "tempcheck" ∨ k = "aip" ∨ k = "arfc") →
      countsGet counts k ≤ m →
      countB (selectGo m l counts n) k + countsGet counts k ≤ m := by
  intro l
  induction l with
  | nil =>
    intro counts n k _ hle
    simpa [selectGo, countB] using hle
  | cons p rest ih =>
    intro counts n k hk hle
    rw [selectGo]
    by_cases h3 : 3 ≤ n
    · rw [if_pos h3]
      simpa [countB] using hle
    · rw [if_neg h3]
      dsimp only
      by_cases hca : countsGet counts (bucketKey p) < m ∨
        (n < 3 ∧ counts.tempcheck = 0 ∧ counts.arfc = 0 ∧ counts.aip = 0)
      · rw [if_pos hca]
        have hlt : countsGet counts (bucketKey p) < m := by
          rcases hca with h | h
          · exact h
          · have h0 : countsGet counts (bucketKey p) = 0 := by
              rcases bucketKey_valid p with hb | hb | hb <;>
                rw [hb] <;> simp [countsGet] <;> omega
            omega
        have hb := bucketKey_valid p
        have hbump := countsGet_bump counts (bucketKey p) k hb hk
        have hle2 : countsGet (countsBump counts (bucketKey p)) k ≤ m := by
          rw [hbump]
          by_cases he : bucketKey p = k
          · subst he
            simp
            omega
          · simp [he]
            exact hle
        have hrec := ih (countsBump counts (bucketKey p)) (n + 1) k hk hle2
        rw [countB_cons]
        rw [hbump] at hrec
        by_cases he : bucketKey p = k <;> simp [he] at hrec ⊢ <;> omega
      · rw [if_neg hca]
        exact ih counts n k hk hle


/-- With a single bucket throughout and cap 3, the loop fills until 3 are
selected or the list runs out. -/
theorem selectGo_single (k0 : String) :
    ∀ (l : List SelProposal) (counts : TypeCounts) (n : Nat),
      (∀ p ∈ l, bucketKey p = k0) →
      countsGet counts k0 ≤ n →
      (selectGo 3 l counts n).length = min (3 - n) l.length := by
  intro l
  induction l with
  | nil =>
    intro counts n _ _
    simp [selectGo]
  | cons p rest ih =>
    intro counts n hall hle
    rw [selectGo]
    by_cases h3 : 3 ≤ n
    · rw [if_pos h3]
      simp
      omega
    · rw [if_neg h3]
      dsimp only
      have hbp : bucketKey p = k0 := hall p (List.mem_cons_self p rest)
      have hcan : countsGet counts (bucketKey p) < 3 := by
        rw [hbp]
        omega
      rw [if_pos (Or.inl hcan)]
      have hb := bucketKey_valid p
      have hk0 : k0 = "tempcheck" ∨ k0 = "aip" ∨ k0 = "arfc" := hbp ▸ hb
      have hbump := countsGet_bump counts (bucketKey p) k0 hb hk0
      have hrec := ih (countsBump counts (bucketKey p)) (n + 1)
        (fun q hq => hall q (List.mem_cons_of_mem p hq))
        (by
          rw [hbump, hbp]
          simp
          omega)
      simp only [List.length_cons, hrec]
      omega

/-- With cap 2 the loop either fills greedily to `min (3 - n) l.length`, or
everything it saw lies in one bucket that ended at its cap. -/
theorem selectGo_multi :
    ∀ (l : List SelProposal) (counts : TypeCounts) (n : Nat),
      countsTotal counts = n →
      (∀ k, k = "tempcheck" ∨ k = "aip" ∨ k = "arfc" →
        countsGet counts k ≤ 2) →
      (selectGo 2 l counts n).length = min (3 - n) l.length ∨
      ∃ b, (b = "tempcheck" ∨ b = "aip" ∨ b = "arfc") ∧
        countsGet counts b + countB (selectGo 2 l counts n) b = 2 ∧
        n + (selectGo 2 l counts n).length = 2 ∧
        ∀ p ∈ l, bucketKey p = b := by
  intro l
  induction l with
  | nil =>
    intro counts n _ _
    left
    simp [selectGo]
  | cons p rest ih =>
    intro counts n htot hinv
    rw [selectGo]
    by_cases h3 : 3 ≤ n
    · rw [if_pos h3]
      left
      simp
      omega
    · rw [if_neg h3]
      dsimp only
      have hbv := bucketKey_valid p
      have hck := hinv (bucketKey p) hbv
      by_cases hlt : countsGet counts (bucketKey p) < 2
      · rw [if_pos (Or.inl hlt)]
        have hrec := ih (countsBump counts (bucketKey p)) (n + 1)
          (by
            rw [countsTotal_bump]
            omega)
          (by
            intro k2 hk2
            rw [countsGet_bump counts (bucketKey p) k2 hbv hk2]
            by_cases he : bucketKey p = k2
            · subst he
              simp
              omega
            · simp [he]
              exact hinv k2 hk2)
        rcases hrec with hrec | ⟨b, hbv2, hcount, hlen, hall⟩
        · left
          simp only [List.length_cons]
          rw [hrec]
          omega
        · right
          have hble := countsGet_le_total (countsBump counts (bucketKey p))
            b hbv2
          have htot2 : countsTotal (countsBump counts (bucketKey p)) = n + 1 := by
            rw [countsTotal_bump]
            omega
          have hcb_le : countB
              (selectGo 2 rest (countsBump counts (bucketKey p)) (n + 1)) b
              ≤ (selectGo 2 rest (countsBump counts (bucketKey p))
                  (n + 1)).length :=
            List.length_filter_le _ _
          have hbumpk := countsGet_bump counts (bucketKey p) (bucketKey p)
            hbv hbv
          have hbk : b = bucketKey p := by
            by_contra hne
            have h1 := countsGet_eq_total_other
              (countsBump counts (bucketKey p)) b (bucketKey p) hbv2 hbv
              hne
            have h2 : countsGet (countsBump counts (bucketKey p))
                (bucketKey p) = countsGet counts (bucketKey p) + 1 := by
              rw [hbumpk]
              simp
            have h3' : countsGet (countsBump counts (bucketKey p)) b
                = countsTotal (countsBump counts (bucketKey p)) := by
              omega
            have h0 := h1 h3'
            omega
          subst hbk
          refine ⟨bucketKey p, hbv, ?_, ?_, ?_⟩
          · rw [countB_cons]
            simp at hbumpk ⊢
            omega
          · rw [List.length_cons]
            omega
          · intro q hq
            rcases List.mem_cons.1 hq with hq1 | hq2
            · rw [hq1]
            · exact hall q hq2
      · have hck2 : countsGet counts (bucketKey p) = 2 := by omega
        have hnadd : ¬(countsGet counts (bucketKey p) < 2 ∨
            (n < 3 ∧ counts.tempcheck = 0 ∧ counts.arfc = 0 ∧
              counts.aip = 0)) := by
          intro hor
          rcases hor with h | ⟨_, h1, h2, h3'⟩
          · omega
          · have h0 : countsGet counts (bucketKey p) = 0 := by
              rcases hbv with hb | hb | hb <;> rw [hb] <;>
                simp [countsGet, h1, h2, h3']
            omega
        rw [if_neg hnadd]
        have hn2 : n = 2 := by
          have := countsGet_le_total counts (bucketKey p) hbv
          omega
        have hrec := ih counts n htot hinv
        rcases hrec with hrec | ⟨b, hbv2, hcount, hlen, hall⟩
        · by_cases hrl : rest.length = 0
          · right
            have hlen0 : (selectGo 2 rest counts n).length = 0 := by
              rw [hrec]
              omega
            have hcb0 : countB (selectGo 2 rest counts n) (bucketKey p) = 0 := by
              have hle2 : countB (selectGo 2 rest counts n) (bucketKey p)
                  ≤ (selectGo 2 rest counts n).length :=
                List.length_filter_le _ _
              omega
            refine ⟨bucketKey p, hbv, ?_, ?_, ?_⟩
            · omega
            · omega
            · intro q hq
              rcases List.mem_cons.1 hq with hq1 | hq2
              · rw [hq1]
              · exact absurd hq2 (by
                  rw [List.length_eq_zero.1 hrl]
                  simp)
          · left
            rw [hrec]
            simp only [List.length_cons]
            omega
        · right
          have hbk : b = bucketKey p := by
            by_contra hne
            have hout0 : (selectGo 2 rest counts n).length = 0 := by omega
            have hcble : countB (selectGo 2 rest counts n) b
                ≤ (selectGo 2 rest counts n).length :=
              List.length_filter_le _ _
            have hbtot : countsGet counts b = countsTotal counts := by omega
            have h0 := countsGet_eq_total_other counts b (bucketKey p) hbv2
              hbv hne hbtot
            omega
          subst hbk
          refine ⟨bucketKey p, hbv, hcount, hlen, ?_⟩
          intro q hq
          rcases List.mem_cons.1 hq with hq1 | hq2
          · rw [hq1]
          · exact hall q hq2


/-- A deduplicated singleton means all elements are equal. -/
theorem all_eq_of_dedup_len_one {l : List String}
    (h : l.dedup.length = 1) : ∃ a, ∀ x ∈ l, x = a := by
  obtain ⟨a, ha⟩ := List.length_eq_one.1 h
  refine ⟨a, fun x hx => ?_⟩
  have hm : x ∈ l.dedup := List.mem_dedup.2 hx
  rw [ha] at hm
  simpa using hm

/-- A nonempty constant list deduplicates to a singleton. -/
theorem dedup_len_one_of_all_eq {l : List String} {a : String}
    (h : ∀ x ∈ l, x = a) (hne : l ≠ []) : l.dedup.length = 1 := by
  have h1 : ∀ x ∈ l.dedup, x = a := fun x hx => h x (List.mem_dedup.1 hx)
  have hnd : l.dedup.Nodup := List.nodup_dedup l
  have hne2 : l.dedup ≠ [] := by
    intro h0
    exact hne ((List.dedup_eq_nil _).1 h0)
  rcases hd : l.dedup with _ | ⟨x, t⟩
  · exact absurd hd hne2
  · rcases t with _ | ⟨y, t2⟩
    · rfl
    · exfalso
      rw [hd] at h1 hnd
      have hx := h1 x (by simp)
      have hy := h1 y (by simp)
      rcases List.pairwise_cons.1 hnd with ⟨hxy, _⟩
      exact hxy y (by simp) (by rw [hx, hy])

/-- The zero counters read 0 for every key. -/
theorem countsGet_zero (k : String) : countsGet ⟨0, 0, 0⟩ k = 0 := by
  unfold countsGet
  split_ifs <;> rfl

/-- Counterexample for C8 as stated: the hyphenated canonical slugs
`quorum-not-reached` and `pending-execution` fall to the default priority 7
(the code matches `"quorum not reached"`/`"pending execution"` with spaces),
so a quorum-not-reached proposal does not outrank an unknown-status one —
the tie is broken by original order instead. -/
theorem selector_priority_cex :
    getStatePriority (some "quorum-not-reached") = 7 ∧
    getStatePriority (some "pending-execution") = 7 ∧
    selectTopProposals
      [⟨some "quorum-not-reached", none, some "aip", 1⟩,
       ⟨some "mystery", none, some "arfc", 0⟩]
      = [⟨some "mystery", none, some "arfc", 0⟩,
         ⟨some "quorum-not-reached", none, some "aip", 1⟩] := by
  decide

/-- C8 (amended): `selectTopProposals` returns exactly `min 3 n` proposals,
as a subsequence of the stable sort by the code's state-priority ascending
(ties by original order); each type bucket is capped at 3, and at 2 as soon
as two candidates differ in bucket; the code's priority table maps the
listed family members as shown — with `crosschainexecuted` at 4, `defeat`
at 6, and the hyphenated slugs `quorum-not-reached`/`pending-execution` at
the default 7. -/
theorem selectTopProposals_spec (l : List SelProposal) :
    (selectTopProposals l).length = min 3 l.length ∧
    (selectTopProposals l).Sublist (sortProposals l) ∧
    (sortProposals l).Pairwise selKeyLe ∧
    (∀ k, k = "tempcheck" ∨ k = "aip" ∨ k = "arfc" →
      countB (selectTopProposals l) k ≤ 3) ∧
    ((∃ p ∈ l, ∃ q ∈ l, bucketKey p ≠ bucketKey q) →
      ∀ k, k = "tempcheck" ∨ k = "aip" ∨ k = "arfc" →
        countB (selectTopProposals l) k ≤ 2) ∧
    (getStatePriority (some "active") = 1 ∧
      getStatePriority (some "open") = 1 ∧
      getStatePriority (some "voting") = 1 ∧
      getStatePriority (some "created") = 2 ∧
      getStatePriority (some "pending") = 3 ∧
      getStatePriority (some "pendingexecution") = 3 ∧
      getStatePriority (some "pending execution") = 3 ∧
      getStatePriority (some "queued") = 3 ∧
      getStatePriority (some "executed") = 4 ∧
      getStatePriority (some "crosschainexecuted") = 4 ∧
      getStatePriority (some "completed") = 4 ∧
      getStatePriority (some "passed") = 4 ∧
      getStatePriority (some "closed") = 5 ∧
      getStatePriority (some "ended") = 5 ∧
      getStatePriority (some "expired") = 5 ∧
      getStatePriority (some "failed") = 6 ∧
      getStatePriority (some "defeated") = 6 ∧
      getStatePriority (some "defeat") = 6 ∧
      getStatePriority (some "rejected") = 6 ∧
      getStatePriority (some "quorum not reached") = 6 ∧
      getStatePriority (some "cancelled") = 6 ∧
      getStatePriority (some "quorum-not-reached") = 7 ∧
      getStatePriority (some "pending-execution") = 7 ∧
      getStatePriority none = 7) := by
  have hz : ∀ k, countsGet ⟨0, 0, 0⟩ k = 0 := countsGet_zero
  have hsel3 : ((sortProposals l).map bucketKey).dedup.length = 1 →
      selectTopProposals l = selectGo 3 (sortProposals l) ⟨0, 0, 0⟩ 0 := by
    intro hone
    unfold selectTopProposals
    dsimp only
    rw [if_pos hone]
  have hsel2 : ¬((sortProposals l).map bucketKey).dedup.length = 1 →
      selectTopProposals l = selectGo 2 (sortProposals l) ⟨0, 0, 0⟩ 0 := by
    intro hone
    unfold selectTopProposals
    dsimp only
    rw [if_neg hone]
  have hlen : (selectTopProposals l).length = min 3 l.length := by
    by_cases hone : ((sortProposals l).map bucketKey).dedup.length = 1
    · obtain ⟨a, ha⟩ := all_eq_of_dedup_len_one hone
      have hall : ∀ p ∈ sortProposals l, bucketKey p = a := fun p hp =>
        ha (bucketKey p) (List.mem_map_of_mem bucketKey hp)
      rw [hsel3 hone, selectGo_single a (sortProposals l) ⟨0, 0, 0⟩ 0 hall
        (by rw [hz])]
      rw [(sortProposals_perm l).length_eq]
    · rcases selectGo_multi (sortProposals l) ⟨0, 0, 0⟩ 0 rfl
        (fun k _ => by rw [hz]; omega) with hL | ⟨b, hbv, hcount, hlen2, hall⟩
      · rw [hsel2 hone, hL, (sortProposals_perm l).length_eq]
      · exfalso
        by_cases hnil : sortProposals l = []
        · rw [hnil] at hlen2
          simp [selectGo] at hlen2
        · have hmapne : (sortProposals l).map bucketKey ≠ [] := by
            simpa using hnil
          exact hone (dedup_len_one_of_all_eq
            (fun x hx => by
              rcases List.mem_map.1 hx with ⟨p, hp, hpe⟩
              rw [← hpe]
              exact hall p hp)
            hmapne)
  refine ⟨hlen, ?_, sortProposals_sorted l, ?_, ?_, ?_⟩
  · by_cases hone : ((sortProposals l).map bucketKey).dedup.length = 1
    · rw [hsel3 hone]
      exact selectGo_sublist 3 (sortProposals l) ⟨0, 0, 0⟩ 0
    · rw [hsel2 hone]
      exact selectGo_sublist 2 (sortProposals l) ⟨0, 0, 0⟩ 0
  · intro k hk
    by_cases hone : ((sortProposals l).map bucketKey).dedup.length = 1
    · rw [hsel3 hone]
      have := selectGo_cap 3 (by omega) (sortProposals l) ⟨0, 0, 0⟩ 0 k hk
        (by rw [hz]; omega)
      rw [hz] at this
      omega
    · rw [hsel2 hone]
      have := selectGo_cap 2 (by omega) (sortProposals l) ⟨0, 0, 0⟩ 0 k hk
        (by rw [hz]; omega)
      rw [hz] at this
      omega
  · rintro ⟨p, hp, q, hq, hpq⟩ k hk
    have hone : ¬((sortProposals l).map bucketKey).dedup.length = 1 := by
      intro hone
      obtain ⟨a, ha⟩ := all_eq_of_dedup_len_one hone
      have hp2 : bucketKey p = a := ha (bucketKey p)
        (List.mem_map_of_mem bucketKey ((sortProposals_perm l).mem_iff.2 hp))
      have hq2 : bucketKey q = a := ha (bucketKey q)
        (List.mem_map_of_mem bucketKey ((sortProposals_perm l).mem_iff.2 hq))
      exact hpq (hp2.trans hq2.symm)
    rw [hsel2 hone]
    have := selectGo_cap 2 (by omega) (sortProposals l) ⟨0, 0, 0⟩ 0 k hk
      (by rw [hz]; omega)
    rw [hz] at this
    omega
  · decide

/-- Witness for C8 (amended) at the spec's selector-diversity example: three
first-round (temp-check) candidates with priorities 1, 1, 4 and two final
(aip) candidates with priorities 1, 6. -/
theorem selectTopProposals_spec_witness :
    (selectTopProposals
      [⟨some "active", some "temp-check", none, 0⟩,
       ⟨some "active", some "temp-check", none, 1⟩,
       ⟨some "executed", some "temp-check", none, 2⟩,
       ⟨some "voting", some "aip", none, 3⟩,
       ⟨some "failed", some "aip", none, 4⟩]).length = 3 ∧
    countB (selectTopProposals
      [⟨some "active", some "temp-check", none, 0⟩,
       ⟨some "active", some "temp-check", none, 1⟩,
       ⟨some "executed", some "temp-check", none, 2⟩,
       ⟨some "voting", some "aip", none, 3⟩,
       ⟨some "failed", some "aip", none, 4⟩]) "tempcheck" ≤ 2 := by
  have h := selectTopProposals_spec
    [⟨some "active", some "temp-check", none, 0⟩,
     ⟨some "active", some "temp-check", none, 1⟩,
     ⟨some "executed", some "temp-check", none, 2⟩,
     ⟨some "voting", some "aip", none, 3⟩,
     ⟨some "failed", some "aip", none, 4⟩]
  constructor
  · rw [h.1]
    decide
  · exact h.2.2.2.2.1
      ⟨⟨some "active", some "temp-check", none, 0⟩, by decide,
        ⟨some "voting", some "aip", none, 3⟩, by decide, by decide⟩
      "tempcheck" (Or.inl rfl)

end CompoundGov
